import Mathlib

/-!
Verification development for the KajovoNG run orchestrator.

Each Python unit relevant to the checked claims is shallowly embedded as an
executable Lean definition; theorems at the end of the file settle the claims.
Filesystem- and network-dependent inputs (file sizes, glob matches, remote
call outcomes, clock readings) are passed in as explicit values, and the
embedded definitions reproduce the control flow of the corresponding source
functions over those inputs.
-/

/- ===== Shared string helpers (ASCII case folding, substring search) ===== -/

/-- ASCII lowercase of a character, mirroring how `str.lower()` acts on the
ASCII letters that all redaction keys and error needles consist of. -/
def lowerChar (c : Char) : Char :=
  if 'A' ≤ c ∧ c ≤ 'Z' then Char.ofNat (c.toNat + 32) else c

/-- ASCII-lowercased string. -/
def lowerStr (s : String) : String :=
  String.mk (s.data.map lowerChar)

/-- Does `l` start with `p` (character lists)? -/
def listStartsWith : List Char → List Char → Bool
  | _, [] => true
  | [], _ :: _ => false
  | c :: cs, d :: ds => c == d && listStartsWith cs ds

/-- Does `l` contain `p` as a contiguous sublist? -/
def listHasSub (l p : List Char) : Bool :=
  match l with
  | [] => listStartsWith [] p
  | _ :: cs => listStartsWith l p || listHasSub cs p

/-- `needle in hay` on strings (Python `in` operator). -/
def strHasSub (hay needle : String) : Bool :=
  listHasSub hay.data needle.data

/-- `needle in hay.lower()`: case-insensitive containment for ASCII needles. -/
def strHasSubLower (hay needle : String) : Bool :=
  strHasSub (lowerStr hay) needle

/- ===== Claim C10: kajovo/core/retry.py, class CircuitBreaker ===== -/

/-- State of `CircuitBreaker` (retry.py lines 10-27).  `failures` and
`cooldown_s` are the constructor arguments; `count` is `_count` and
`openUntil` is `_open_until`.  Clock readings (`time.time()`) are passed
explicitly as rationals. -/
structure CircuitBreaker where
  failures : Nat
  cooldown_s : ℚ
  count : Nat
  openUntil : ℚ
deriving DecidableEq, Repr

/-- `CircuitBreaker.allow`: `time.time() >= self._open_until`. -/
def CircuitBreaker.allow (b : CircuitBreaker) (now : ℚ) : Bool :=
  b.openUntil ≤ now

/-- `CircuitBreaker.on_success`: reset the consecutive-failure counter and
the open deadline. -/
def CircuitBreaker.on_success (b : CircuitBreaker) : CircuitBreaker :=
  { b with count := 0, openUntil := 0 }

/-- `CircuitBreaker.on_failure`: bump the counter; on reaching the threshold
open the breaker until `now + cooldown_s`. -/
def CircuitBreaker.on_failure (b : CircuitBreaker) (now : ℚ) : CircuitBreaker :=
  let c := b.count + 1
  if b.failures ≤ c then
    { b with count := c, openUntil := now + b.cooldown_s }
  else
    { b with count := c }

/- ===== Claims C6/C7: kajovo/core/runlog.py, RunLogger redaction/state ===== -/

/-- JSON values as serialized into `events.jsonl` and `run_state.json`
(numbers abstracted to integers; the redaction logic never inspects them). -/
inductive JVal where
  | null : JVal
  | bool (b : Bool) : JVal
  | num (n : Int) : JVal
  | str (s : String) : JVal
  | arr (xs : List JVal) : JVal
  | obj (fields : List (String × JVal)) : JVal

/-- `_REDACT_KEYS` from runlog.py lines 13-22. -/
def REDACT_KEYS : List String :=
  ["authorization", "api_key", "openai_api_key", "password",
   "ssh_password", "smtp_password", "token", "bearer"]

/-- The replacement written for secrets. -/
def PLACEHOLDER : String := "***REDACTED***"

mutual

/-- `RunLogger._redact` (runlog.py lines 82-95): secret-named keys map to the
placeholder, other dict values and list elements recurse, and any string
containing `"bearer "` case-insensitively is replaced wholesale. -/
def redact : JVal → JVal
  | .obj fields => .obj (redactFields fields)
  | .arr xs => .arr (redactArr xs)
  | .str s => if strHasSubLower s "bearer " then .str PLACEHOLDER else .str s
  | v => v

/-- Dict branch of `_redact`. -/
def redactFields : List (String × JVal) → List (String × JVal)
  | [] => []
  | (k, v) :: rest =>
      (k, if REDACT_KEYS.contains (lowerStr k) then JVal.str PLACEHOLDER
          else redact v) :: redactFields rest

/-- List branch of `_redact`. -/
def redactArr : List JVal → List JVal
  | [] => []
  | v :: rest => redact v :: redactArr rest

end

mutual

/-- Every string value (recursively) lacks the `"bearer "` marker. -/
def bearerFree : JVal → Bool
  | .str s => !(strHasSubLower s "bearer ")
  | .arr xs => bearerFreeArr xs
  | .obj fields => bearerFreeFields fields
  | _ => true

def bearerFreeFields : List (String × JVal) → Bool
  | [] => true
  | (_, v) :: rest => bearerFree v && bearerFreeFields rest

def bearerFreeArr : List JVal → Bool
  | [] => true
  | v :: rest => bearerFree v && bearerFreeArr rest

end

/-- Is this value the redaction placeholder string? -/
def isPlaceholder : JVal → Bool
  | .str s => s == PLACEHOLDER
  | _ => false

mutual

/-- Every key (recursively) whose lowercased name is in the secret set maps
to the placeholder. -/
def secretKeysRedacted : JVal → Bool
  | .obj fields => secretKeysRedactedFields fields
  | .arr xs => secretKeysRedactedArr xs
  | _ => true

def secretKeysRedactedFields : List (String × JVal) → Bool
  | [] => true
  | (k, v) :: rest =>
      (if REDACT_KEYS.contains (lowerStr k) then isPlaceholder v
       else secretKeysRedacted v) && secretKeysRedactedFields rest

def secretKeysRedactedArr : List JVal → Bool
  | [] => true
  | v :: rest => secretKeysRedacted v && secretKeysRedactedArr rest

end

/-- The record appended by `RunLogger.event` (runlog.py line 112):
`{"ts": time.time(), "type": typ, "data": self._redact(data)}`. -/
def eventRecord (ts : Int) (typ : String) (data : JVal) : JVal :=
  .obj [("ts", .num ts), ("type", .str typ), ("data", redact data)]

/-- `RunLogger._write_state` (runlog.py lines 97-98): the full payload is
redacted before the atomic write. -/
def writeState (state : JVal) : JVal :=
  redact state

/-- Binding of `k` in an association list (Python dict lookup; dicts carry
unique keys, so the first binding is the binding). -/
def assocFind {α : Type} : List (String × α) → String → Option α
  | [], _ => none
  | (k', v) :: rest, k => if k' == k then some v else assocFind rest k

/-- Python `dict.__setitem__`: replace the existing binding in place, else
append. -/
def assocSet {α : Type} : List (String × α) → String → α → List (String × α)
  | [], k, v => [(k, v)]
  | (k', v') :: rest, k, v =>
      if k' == k then (k, v) :: rest else (k', v') :: assocSet rest k v

/-- Python `dict.update`: set every binding of `upd` into `base`. -/
def dictUpdate {α : Type} (base upd : List (String × α)) : List (String × α) :=
  upd.foldl (fun acc kv => assocSet acc kv.1 kv.2) base

/-- Last binding of `k` in a binding list (what a sequence of dict
assignments leaves behind). -/
def lastBind {α : Type} : List (String × α) → String → Option α
  | [], _ => none
  | (k', v) :: rest, k =>
      match lastBind rest k with
      | some w => some w
      | none => if k' == k then some v else none

/-- `RunLogger.update_state` (runlog.py lines 100-109): read the stored
state, apply `state.update(self._redact(patch))` (a shallow dict update),
then `_write_state` (which redacts the merged object again). -/
def update_state (stored patch : List (String × JVal)) : JVal :=
  writeState (.obj (dictUpdate stored (redactFields patch)))

/-- Fields of the written state object. -/
def stateFields : JVal → List (String × JVal)
  | .obj fields => fields
  | _ => []

/- ===== Claim C8: kajovo/core/contracts.py, parse_json_strict ===== -/

/-- Whitespace characters stripped by Python `str.strip()` (space, tab,
newline, carriage return, vertical tab, form feed). -/
def isWsChar (c : Char) : Bool :=
  c == ' ' || c == '\t' || c == '\n' || c == '\r' ||
    c == Char.ofNat 11 || c == Char.ofNat 12

/-- Python `str.strip()`. -/
def pyStrip (s : String) : String :=
  String.mk (((s.data.dropWhile (fun c => isWsChar c)).reverse.dropWhile
    (fun c => isWsChar c)).reverse)

/-- Longest prefix of `l` ending with the character `c` (used for the greedy
regex tail), `none` when `c` does not occur. -/
def takeUpToLast (l : List Char) (c : Char) : Option (List Char) :=
  match l with
  | [] => none
  | x :: rest =>
      match takeUpToLast rest c with
      | some tail => some (x :: tail)
      | none => if x == c then some [x] else none

/-- The text matched by the `re.DOTALL` greedy object regex of contracts.py
line 31 (an opening brace, then greedily everything up to the last closing
brace of the string): starts at the first opening brace that has a closing
brace somewhere after it, ends at the last closing brace. -/
def greedyBraceMatch : List Char → Option (List Char)
  | [] => none
  | x :: rest =>
      if x == Char.ofNat 123 then
        match takeUpToLast rest (Char.ofNat 125) with
        | some tail => some (x :: tail)
        | none => greedyBraceMatch rest
      else greedyBraceMatch rest

/-- `_JSON_OBJ_RE.search(text).group(1)` as a string. -/
def greedyJsonSub (t : String) : Option String :=
  (greedyBraceMatch t.data).map String.mk

/-- The two `ContractError` messages of `parse_json_strict`. -/
def MSG_MUST_BE_OBJECT : String := "Response JSON must be an object."

def MSG_NOT_VALID_JSON : String :=
  "Response is not valid JSON (strict contract violated)."

/-- `parse_json_strict` (contracts.py lines 33-53), parameterized by the
stdlib JSON parser `loads` (`json.loads`, returning `none` on parse
failure).  Python's `json.loads` maps the JSON literal `null` to `None`,
which the source cannot distinguish from a parse failure; the inner match
reproduces that conflation.  `ContractError` is the `Except.error` branch. -/
def parse_json_strict (loads : String → Option JVal) (text : String) :
    Except String JVal :=
  let t := pyStrip text
  let parsed : Option JVal :=
    match loads t with
    | some JVal.null => none
    | other => other
  match parsed with
  | some (JVal.obj fields) => Except.ok (JVal.obj fields)
  | some _ => Except.error MSG_MUST_BE_OBJECT
  | none =>
      match greedyJsonSub t with
      | some sub =>
          match loads sub with
          | some (JVal.obj fields) => Except.ok (JVal.obj fields)
          | _ => Except.error MSG_NOT_VALID_JSON
      | none => Except.error MSG_NOT_VALID_JSON

/-- Is the value a JSON object? -/
def isObjVal : JVal → Bool
  | JVal.obj _ => true
  | _ => false

/- ===== Claim C9: kajovo/core/filescan.py, scan_tree ===== -/

/-- `SENSITIVE_NAMES` from filescan.py line 8. -/
def SENSITIVE_NAMES : List String :=
  [".env", ".env.local", ".env.prod", ".pypirc", "id_rsa", "id_ed25519"]

/-- Does `s` end with `suffix`? -/
def strEndsWith (s suffix : String) : Bool :=
  listStartsWith s.data.reverse suffix.data.reverse

/-- One entry of the `scan_tree` result (the `ScanItem` dataclass,
filescan.py lines 15-23; `abs_path` omitted as it is `root/rel_path`). -/
structure ScanItem where
  rel_path : String
  size : Nat
  sha256 : Option String
  uploadable : Bool
  reason : String
  sensitive : Bool

/-- The filesystem/pattern probe outcomes `scan_tree` observes for a single
file, in source order: `statOk`/`size` for `os.path.getsize`; the four
glob/extension gate outcomes (`allowGlobs` is `bool(allow_globs)` etc.);
`isBinary` for `is_probably_binary`; `secretHit` for a `SECRET_PATTERNS`
match on the head (or a read failure, filescan.py lines 99-108); and
`hashResult` for the `sha256_file` outcome, `none` when it raised. -/
structure FileFacts where
  rel_path : String
  fileName : String
  statOk : Bool
  size : Nat
  allowGlobs : Bool
  matchesAllowGlob : Bool
  denyGlobs : Bool
  matchesDenyGlob : Bool
  allowExts : Bool
  extInAllow : Bool
  denyExts : Bool
  extInDeny : Bool
  maxSizeBytes : Nat
  isBinary : Bool
  secretHit : Bool
  hashResult : Option String

/-- The `sensitive` name test of filescan.py line 91: the file name is in
`SENSITIVE_NAMES` (lowercased) or the relative path ends in `.env`. -/
def sensitiveName (f : FileFacts) : Bool :=
  SENSITIVE_NAMES.contains (lowerStr f.fileName) ||
    strEndsWith (lowerStr f.rel_path) ".env"

/-- The `ScanItem` that the `scan_tree` per-file loop (filescan.py lines
63-120) appends for one file. -/
def classifyFile (f : FileFacts) : ScanItem :=
  if !f.statOk then
    ⟨f.rel_path, 0, none, false, "stat_failed", true⟩
  else if f.allowGlobs && !f.matchesAllowGlob then
    ⟨f.rel_path, f.size, none, false, "not_in_allow_globs", false⟩
  else if f.denyGlobs && f.matchesDenyGlob then
    ⟨f.rel_path, f.size, none, false, "deny_glob", false⟩
  else if f.allowExts && !f.extInAllow then
    ⟨f.rel_path, f.size, none, false, "ext_not_allowed", false⟩
  else if f.denyExts && f.extInDeny then
    ⟨f.rel_path, f.size, none, false, "denied_extension", false⟩
  else if f.size == 0 then
    ⟨f.rel_path, f.size, none, false, "empty_file", false⟩
  else if f.maxSizeBytes < f.size then
    ⟨f.rel_path, f.size, none, false, "too_large", sensitiveName f⟩
  else if f.isBinary then
    ⟨f.rel_path, f.size, none, false, "binary", sensitiveName f⟩
  else if sensitiveName f || f.secretHit then
    ⟨f.rel_path, f.size, none, false, "sensitive_or_secret_detected", true⟩
  else
    ⟨f.rel_path, f.size, f.hashResult, true, "ok", false⟩

/- ===== Claim C2: kajovo/core/model_capabilities.py, _probe_one ===== -/

/-- An ASCII apostrophe (used inside error-needle strings). -/
def SQ : String := String.mk [Char.ofNat 39]

/-- `_err_indicates_param_unsupported` (model_capabilities.py lines 45-75):
lowercase the error, then require one of the schema/param-rejection needles
AND the parameter name to occur; or the parameter name together with an
unknown/unrecognized/unsupported word and a parameter/field word. -/
def errIndicatesParamUnsupported (err param : String) : Bool :=
  if err = "" then false
  else
    let e := lowerStr err
    let key := lowerStr param
    let needles : List String :=
      ["unknown parameter: " ++ key,
       "unrecognized parameter: " ++ key,
       "unexpected parameter: " ++ key,
       "unsupported parameter: " ++ key,
       "additional properties are not allowed",
       "extra fields not permitted",
       SQ ++ key ++ SQ ++ " is not permitted",
       SQ ++ key ++ SQ ++ " was unexpected",
       key ++ " is not allowed",
       key ++ " is not supported",
       "invalid request"]
    if (needles.any (fun n => strHasSub e n)) && strHasSub e key then true
    else if strHasSub e key &&
        (strHasSub e "unknown" || strHasSub e "unrecognized" ||
          strHasSub e "unsupported") &&
        (strHasSub e "parameter" || strHasSub e "field") then true
    else false

/-- Outcome of one `_try_response` call: a response (carrying its id) or the
stringified exception. -/
inductive ProbeOutcome where
  | ok (resp_id : String) : ProbeOutcome
  | fail (err : String) : ProbeOutcome

/-- The remote outcomes `_probe_one` observes for one model: the basic
probe, the `previous_response_id` probe, the temperature probe, whether the
shared vector store was set up (`vs_id` passed), and the tools probe. -/
structure ProbeRun where
  basic : ProbeOutcome
  prev : ProbeOutcome
  temp : ProbeOutcome
  vsReady : Bool
  tools : ProbeOutcome

/-- The capability flags of the `ModelCapabilities` record (lines 91-104;
`model`/`tested_at`/`notes` carry no claim-relevant content).  `errors` is
the dict built up during the probe, in insertion order. -/
structure CapsRecord where
  ok_basic : Bool
  supports_previous_response_id : Bool
  supports_temperature : Bool
  supports_tools : Bool
  supports_file_search : Bool
  supports_vector_store : Bool
  errors : List (String × String)

/-- Step 2 of `_probe_one` (lines 340-359): flag and error entries from the
`previous_response_id` probe, run only when the basic response had an id. -/
def probePrevFlag (resp1_id : String) (o : ProbeOutcome) :
    Bool × List (String × String) :=
  if resp1_id = "" then (true, [])
  else
    match o with
    | .ok _ => (true, [])
    | .fail errp =>
        if errp = "" then (true, [])
        else if errIndicatesParamUnsupported errp "previous_response_id" then
          (false, [("previous_response_id_param", errp)])
        else (true, [("previous_response_id_inconclusive", errp)])

/-- Step 3 of `_probe_one` (lines 361-379): the temperature probe. -/
def probeTempFlag (o : ProbeOutcome) : Bool × List (String × String) :=
  match o with
  | .ok _ => (true, [])
  | .fail errt =>
      if errt ≠ "" && errIndicatesParamUnsupported errt "temperature" then
        (false, [("temperature_param", errt)])
      else if errt = "" then (true, [])
      else (true, [("temperature_inconclusive", errt)])

/-- Step 4 of `_probe_one` (lines 381-405): the tools/file_search probe,
run only when the shared vector store is ready; an inconclusive failure
keeps both flags disabled but records the reason. -/
def probeToolsFlags (vsReady : Bool) (o : ProbeOutcome) :
    Bool × Bool × List (String × String) :=
  if vsReady then
    match o with
    | .ok _ => (true, true, [])
    | .fail errx =>
        if errx ≠ "" && errIndicatesParamUnsupported errx "tools" then
          (false, false, [("tools_param", errx)])
        else
          (false, false, [("tools_inconclusive",
            if errx = "" then "unknown" else errx)])
  else (false, false, [])

/-- `_probe_one` (model_capabilities.py lines 303-418) over the observed
probe outcomes. -/
def probeOne (r : ProbeRun) : CapsRecord :=
  match r.basic with
  | .fail err1 =>
      { ok_basic := false
        supports_previous_response_id := true
        supports_temperature := false
        supports_tools := false
        supports_file_search := false
        supports_vector_store := false
        errors := [("basic", if err1 = "" then "unknown" else err1)] }
  | .ok resp1_id =>
      let p := probePrevFlag resp1_id r.prev
      let t := probeTempFlag r.temp
      let z := probeToolsFlags r.vsReady r.tools
      { ok_basic := true
        supports_previous_response_id := p.1
        supports_temperature := t.1
        supports_tools := z.1
        supports_file_search := z.2.1
        supports_vector_store := z.2.1
        errors := p.2 ++ t.2 ++ z.2.2 }

/- ===== Claim C5: kajovo/core/pricing.py, PriceTable ===== -/

/-- The `PriceRow` dataclass (pricing.py lines 9-17), with Python floats
modelled as rationals. -/
structure PriceRow where
  model : String
  input_per_1k : ℚ
  output_per_1k : ℚ
  batch_input_per_1k : Option ℚ := none
  batch_output_per_1k : Option ℚ := none
  file_search_per_1k : Option ℚ := none
  storage_per_gb_day : Option ℚ := none
deriving DecidableEq, Repr

/-- In-memory `PriceTable` state (pricing.py lines 48-54): the rows dict,
`last_updated`, `verified` and `last_fetch_source`. -/
structure PriceTableState where
  rows : List (String × PriceRow)
  last_updated : Option ℚ
  verified : Bool
  last_fetch_source : String

/-- `PriceTable.builtin_fallback().rows` (pricing.py lines 118-126). -/
def builtin_fallback_rows : List (String × PriceRow) :=
  [("gpt-4o-mini",
    { model := "gpt-4o-mini"
      input_per_1k := 15/100
      output_per_1k := 60/100 }),
   ("gpt-4o",
    { model := "gpt-4o"
      input_per_1k := 5
      output_per_1k := 15 })]

/-- `PriceTable._rows_equal` (pricing.py lines 128-137): field equality,
with absent optional rates compared as `0.0`. -/
def rows_equal (a b : PriceRow) : Bool :=
  a.model == b.model &&
  a.input_per_1k == b.input_per_1k &&
  a.output_per_1k == b.output_per_1k &&
  a.batch_input_per_1k.getD 0 == b.batch_input_per_1k.getD 0 &&
  a.batch_output_per_1k.getD 0 == b.batch_output_per_1k.getD 0 &&
  a.file_search_per_1k.getD 0 == b.file_search_per_1k.getD 0 &&
  a.storage_per_gb_day.getD 0 == b.storage_per_gb_day.getD 0

/-- Python `dict.setdefault` applied for every binding of `defaults`. -/
def setDefaults {α : Type} (base defaults : List (String × α)) :
    List (String × α) :=
  defaults.foldl
    (fun acc kv => if (assocFind acc kv.1).isSome then acc else acc ++ [kv])
    base

/-- `PriceTable._merge_with_fallback` (pricing.py lines 139-145): copy the
existing rows, overwrite with the new rows, then `setdefault` the built-in
baseline models. -/
def merge_with_fallback (st : PriceTableState)
    (rows : List (String × PriceRow)) : List (String × PriceRow) :=
  setDefaults (dictUpdate st.rows rows) builtin_fallback_rows

/-- `set(a.keys()) == set(b.keys())` on binding lists. -/
def keysSetEq {α : Type} (a b : List (String × α)) : Bool :=
  a.all (fun p => (assocFind b p.1).isSome) &&
    b.all (fun p => (assocFind a p.1).isSome)

/-- One step of the `update_from_rows` change detection (pricing.py lines
155-159): a merged row differs when the model is new or its stored row is
not `_rows_equal` to the merged one. -/
def rowDiffers (st : PriceTableState) (p : String × PriceRow) : Bool :=
  match assocFind st.rows p.1 with
  | none => true
  | some old => !(rows_equal old p.2)

/-- The `changed` flag of `update_from_rows` (pricing.py lines 151-159). -/
def rowsChanged (st : PriceTableState)
    (merged : List (String × PriceRow)) : Bool :=
  if !(keysSetEq st.rows merged) then true
  else merged.any (rowDiffers st)

/-- `PriceTable.update_from_rows` (pricing.py lines 147-171), with
`time.time()` passed explicitly; the trailing `save_cache()` is modelled
separately by `save_load`. -/
def update_from_rows (st : PriceTableState) (rows : List (String × PriceRow))
    (verified : Bool) (source : String) (now : ℚ) : PriceTableState :=
  if rows = [] then st
  else if rowsChanged st (merge_with_fallback st rows) then
    { rows := merge_with_fallback st rows, last_updated := some now,
      verified := verified, last_fetch_source := source }
  else
    { rows := merge_with_fallback st st.rows, last_updated := st.last_updated,
      verified := verified, last_fetch_source := source }

/-- The row list serialized by `save_cache` (pricing.py line 80:
`[vars(r) for r in self.rows.values()]`). -/
def save_cache_rows (st : PriceTableState) : List PriceRow :=
  st.rows.map (fun p => p.2)

/-- The rows dict rebuilt by `load_cache` (pricing.py lines 64-71): re-key
each saved row by its `model`, skipping rows whose model is empty
(`PriceRow.from_dict` applied to `vars(r)` reproduces `r` field for field,
so it is the identity here). -/
def load_cache_rows (saved : List PriceRow) : List (String × PriceRow) :=
  saved.foldl
    (fun acc r => if r.model == "" then acc else assocSet acc r.model r) []

/-- `save_cache` followed by `load_cache`: rows go through the JSON file
and are re-keyed by model; `last_updated`, `verified` and
`last_fetch_source` are stored and reloaded as plain scalars. -/
def save_load (st : PriceTableState) : PriceTableState :=
  { rows := load_cache_rows (save_cache_rows st),
    last_updated := st.last_updated,
    verified := st.verified,
    last_fetch_source := st.last_fetch_source }

/-- Well-formed rows dict: unique keys, each row keyed by its own non-empty
model name.  `load_cache` only ever builds such dicts, and
`builtin_fallback` is one. -/
def wfRows (l : List (String × PriceRow)) : Prop :=
  (l.map Prod.fst).Nodup ∧ ∀ p ∈ l, p.2.model = p.1 ∧ p.1 ≠ ""

/-- `compute_cost` (pricing.py lines 173-194): batch rates when present and
requested, file-search surcharge on input tokens, storage surcharge.
Returns `(total, tool_cost, storage_cost)`. -/
def compute_cost (row : Option PriceRow) (input_tokens output_tokens : Nat)
    (is_batch use_file_search : Bool) (storage_gb_days : ℚ) : ℚ × ℚ × ℚ :=
  match row with
  | none => (0, 0, 0)
  | some r =>
      let inp := match r.batch_input_per_1k with
        | some b => if is_batch then b else r.input_per_1k
        | none => r.input_per_1k
      let outp := match r.batch_output_per_1k with
        | some b => if is_batch then b else r.output_per_1k
        | none => r.output_per_1k
      let base := (input_tokens : ℚ) / 1000 * inp +
        (output_tokens : ℚ) / 1000 * outp
      let tool_cost := match r.file_search_per_1k with
        | some fsp => if use_file_search then (input_tokens : ℚ) / 1000 * fsp
          else 0
        | none => 0
      let storage_cost := match r.storage_per_gb_day with
        | some sp => if 0 < storage_gb_days then storage_gb_days * sp else 0
        | none => 0
      (base + tool_cost + storage_cost, tool_cost, storage_cost)

/- ===== Claims C1/C4: kajovo/core/pipeline.py output/stop handling ===== -/

/-- Does `s` start with `p`? -/
def strBeginsWith (s p : String) : Bool :=
  listStartsWith s.data p.data

/-- Split a character list on a separator (Python `str.split(sep)`). -/
def splitCharsOn (sep : Char) : List Char → List (List Char)
  | [] => [[]]
  | c :: rest =>
      if c == sep then [] :: splitCharsOn sep rest
      else
        match splitCharsOn sep rest with
        | h :: t => (c :: h) :: t
        | [] => [[c]]

/-- Split a POSIX path into `/`-separated segments. -/
def splitSlash (s : String) : List String :=
  (splitCharsOn '/' s.data).map String.mk

/-- Filesystem resolution of a segment sequence under an absolute root:
empty and `.` segments vanish, `..` pops the previous segment (at the root
it stays at the root, like `os.path.normpath`). -/
def normSegs (segs : List String) : List String :=
  segs.foldl
    (fun acc seg =>
      if seg = "" ∨ seg = "." then acc
      else if seg = ".." then acc.dropLast
      else acc ++ [seg])
    []

/-- The on-disk location of the file `_save_out_files` opens (pipeline.py
line 831): `os.path.join(out_dir, rel)` as resolved by the OS.  An absolute
`rel` makes `os.path.join` discard `out_dir` entirely.  `out_dir` is given
as its resolved absolute segment list. -/
def save_out_files_dst (out_dir : List String) (rel : String) : List String :=
  if strBeginsWith rel "/" then normSegs (splitSlash rel)
  else normSegs (out_dir ++ splitSlash rel)

/-- Is `p` under `root` (segment prefix)? -/
def underRoot : List String → List String → Bool
  | [], _ => true
  | _ :: _, [] => false
  | r :: rs, p :: ps => r == p && underRoot rs ps

/-- Is `p` strictly inside `root`? -/
def strictlyInside (root p : List String) : Bool :=
  underRoot root p && !(p == root)

/-- Modelled from the spec: `safe_join_under_root(root, rel)` is imported
from `kajovo.core.utils` by cascade_pipeline.py and ui/batch_panel.py and
exercised by tests/test_security_regressions.py, but its body is missing
from the source tree (utils.py has no such function).  Per the spec
("Ensure every destination path is resolved relative to `out_dir` and never
escapes it") and the regression test (a `..` traversal raises ValueError, a
plain relative path lands under the root), it resolves `rel` against `root`
and raises when the result is not under the root; `none` models the raise. -/
def safe_join_under_root (root : List String) (rel : String) :
    Option (List String) :=
  let p := normSegs (root ++ splitSlash rel)
  if underRoot root p then some p else none

/-- The worker attributes the stop/failure path reads (pipeline.py lines
100-112): `_has_receipt`, the token accumulators (updated only by
`_record_receipt`, lines 880-881), `_used_file_search`, and the relevant
run-configuration fields. -/
structure StopCtx where
  has_receipt : Bool
  total_input_tokens : Nat
  total_output_tokens : Nat
  model : String
  mode : String
  send_as_c : Bool
  used_file_search : Bool

/-- The fields of the fallback `Receipt` relevant to claim C4
(receipt.py lines 35-53; identifiers and timestamps omitted). -/
structure FallbackReceipt where
  mode : String
  flow_type : String
  response_id : Option String
  batch_id : Option String
  input_tokens : Nat
  output_tokens : Nat
  total_cost : ℚ
  notes : String

/-- The price row chosen by `_ensure_receipt_on_failure` (pipeline.py line
886): the table row for the model, else the builtin row for the model,
else the builtin `gpt-4o-mini` row. -/
def fallbackPriceRow (pt : PriceTableState) (model : String) :
    Option PriceRow :=
  match assocFind pt.rows model with
  | some r => some r
  | none =>
      match assocFind builtin_fallback_rows model with
      | some r => some r
      | none => assocFind builtin_fallback_rows "gpt-4o-mini"

/-- `_ensure_receipt_on_failure(reason, flow_type)` (pipeline.py lines
883-909): no-op when a receipt exists, else build a fallback receipt from
the accumulated token counters with `notes="Fallback receipt (<reason>)"`. -/
def ensure_receipt_on_failure (ctx : StopCtx) (pt : PriceTableState)
    (reason flow_type : String) : Option FallbackReceipt :=
  if ctx.has_receipt then none
  else
    let row := fallbackPriceRow pt ctx.model
    let c := compute_cost row ctx.total_input_tokens ctx.total_output_tokens
      ctx.send_as_c ctx.used_file_search 0
    some { mode := ctx.mode, flow_type := flow_type, response_id := none,
           batch_id := none, input_tokens := ctx.total_input_tokens,
           output_tokens := ctx.total_output_tokens, total_cost := c.1,
           notes := "Fallback receipt (" ++ reason ++ ")" }

/-- The `STOP_REQUESTED` branch of `RunWorker.run` (pipeline.py lines
329-335): write `status="stopped"` into `run_state.json` and call
`_ensure_receipt_on_failure("stopped_by_user", flow_type="RUN_STOPPED")`.
Returns the written status and the inserted receipt (if any). -/
def stopHandler (ctx : StopCtx) (pt : PriceTableState) :
    String × Option FallbackReceipt :=
  ("stopped", ensure_receipt_on_failure ctx pt "stopped_by_user" "RUN_STOPPED")

/- ===== Claim C3: kajovo/core/pricing_audit.py + receipt.py ===== -/

/-- Python truthiness of an optional string (`if response_id:` treats both
`None` and `""` as false). -/
def truthy : Option String → Bool
  | some s => !(s == "")
  | none => false

/-- One row of the `receipts` table, restricted to the columns the auditor's
dedup logic reads (receipt.py line 106: `SELECT id, run_id, response_id,
batch_id, total_cost`). -/
structure DBRow where
  id : Nat
  run_id : String
  response_id : Option String
  batch_id : Option String
  total_cost : ℚ
deriving DecidableEq, Repr

/-- The `{"id", "run_id", "total_cost"}` info dicts stored in the dedup
index. -/
structure RowRef where
  id : Nat
  run_id : String
  total_cost : ℚ
deriving DecidableEq, Repr

/-- The dedup index built by `ReceiptDB.existing_index` (receipt.py lines
102-116) and mutated by the auditor. -/
structure AuditIdx where
  resp : List (String × RowRef)
  batch : List (String × RowRef)
  run_ids : List String
deriving Repr

/-- The receipts table plus the next `AUTOINCREMENT` row id. -/
structure AuditDB where
  rows : List DBRow
  next_id : Nat
deriving Repr

/-- The receipt fields `_insert_or_update` and `_maybe_insert_fallback`
consult (pricing_audit.py lines 232-257 and 202-230). -/
structure AuditReceipt where
  run_id : String
  response_id : Option String
  batch_id : Option String
  total_cost : ℚ
deriving Repr

/-- `ReceiptDB.insert` (receipt.py lines 76-92): append a row, return its
autoincrement id. -/
def db_insert (db : AuditDB) (rc : AuditReceipt) : AuditDB × Nat :=
  ({ rows := db.rows ++
      [⟨db.next_id, rc.run_id, rc.response_id, rc.batch_id, rc.total_cost⟩],
     next_id := db.next_id + 1 }, db.next_id)

/-- `ReceiptDB.update_row` (receipt.py lines 120-152): overwrite every
column of the row with the given id. -/
def db_update_row (db : AuditDB) (row_id : Nat) (rc : AuditReceipt) :
    AuditDB :=
  { db with rows := db.rows.map (fun row =>
      if row.id == row_id then
        ⟨row_id, rc.run_id, rc.response_id, rc.batch_id, rc.total_cost⟩
      else row) }

/-- Add to a Python `set` of strings. -/
def listAddUnique (l : List String) (s : String) : List String :=
  if l.contains s then l else l ++ [s]

/-- One row of the `existing_index` scan (receipt.py lines 110-115): index
a truthy response id and a truthy batch id, collect the run id. -/
def eiStep (idx : AuditIdx) (row : DBRow) : AuditIdx :=
  { resp := match row.response_id with
      | some rid =>
          if rid == "" then idx.resp
          else assocSet idx.resp rid ⟨row.id, row.run_id, row.total_cost⟩
      | none => idx.resp
    batch := match row.batch_id with
      | some bid =>
          if bid == "" then idx.batch
          else assocSet idx.batch bid ⟨row.id, row.run_id, row.total_cost⟩
      | none => idx.batch
    run_ids := listAddUnique idx.run_ids row.run_id }

/-- `ReceiptDB.existing_index` (receipt.py lines 102-116): walk all rows,
index truthy response ids and batch ids, collect run ids. -/
def existing_index (db : AuditDB) : AuditIdx :=
  db.rows.foldl eiStep ⟨[], [], []⟩

/-- `PricingAuditor._needs_update` (pricing_audit.py lines 259-264). -/
def needs_update (existing_total new_total : ℚ) : Bool :=
  if existing_total == 0 && !(new_total == 0) then true
  else decide (|existing_total - new_total| > 1 / 1000000)

/-- `PricingAuditor._insert_or_update` (pricing_audit.py lines 232-257):
dedup by truthy `response_id`, then truthy `batch_id`; update in place when
the cost delta is meaningful; otherwise insert a fresh row and register its
ids in the index.  Returns the new store, the new index, and the op name. -/
def insert_or_update (db : AuditDB) (idx : AuditIdx) (rc : AuditReceipt) :
    AuditDB × AuditIdx × String :=
  let respHit : Option (String × RowRef) :=
    match rc.response_id with
    | some rid =>
        if rid == "" then none
        else
          match assocFind idx.resp rid with
          | some info => some (rid, info)
          | none => none
    | none => none
  match respHit with
  | some (rid, info) =>
      if needs_update info.total_cost rc.total_cost then
        (db_update_row db info.id rc,
         { idx with
            resp := assocSet idx.resp rid ⟨info.id, info.run_id, rc.total_cost⟩ },
         "updated")
      else (db, idx, "skipped")
  | none =>
      let batchHit : Option (String × RowRef) :=
        match rc.batch_id with
        | some bid =>
            if bid == "" then none
            else
              match assocFind idx.batch bid with
              | some info => some (bid, info)
              | none => none
        | none => none
      match batchHit with
      | some (bid, info) =>
          if needs_update info.total_cost rc.total_cost then
            (db_update_row db info.id rc,
             { idx with
                batch :=
                  assocSet idx.batch bid ⟨info.id, info.run_id, rc.total_cost⟩ },
             "updated")
          else (db, idx, "skipped")
      | none =>
          let r := db_insert db rc
          ({ rows := r.1.rows, next_id := r.1.next_id },
           { resp := match rc.response_id with
               | some rid =>
                   if rid == "" then idx.resp
                   else assocSet idx.resp rid ⟨r.2, rc.run_id, rc.total_cost⟩
               | none => idx.resp
             batch := match rc.batch_id with
               | some bid =>
                   if bid == "" then idx.batch
                   else assocSet idx.batch bid ⟨r.2, rc.run_id, rc.total_cost⟩
               | none => idx.batch
             run_ids := listAddUnique idx.run_ids rc.run_id },
           "inserted")

/-- `PricingAuditor._maybe_insert_fallback` (pricing_audit.py lines
202-230): for a run with no responses, insert a zero receipt unless the run
id is already accounted, registering a synthetic `fallback-<row_id>` key in
the response index. -/
def maybe_insert_fallback (db : AuditDB) (idx : AuditIdx) (run_id : String) :
    AuditDB × AuditIdx × Nat :=
  if idx.run_ids.contains run_id then (db, idx, 0)
  else
    let r := db_insert db ⟨run_id, none, none, 0⟩
    (r.1,
     { resp := assocSet idx.resp ("fallback-" ++ toString r.2) ⟨r.2, run_id, 0⟩
       batch := idx.batch
       run_ids := listAddUnique idx.run_ids run_id },
     1)

/-- The dedup-relevant content the auditor extracts from one
`responses/*.json` file via `_build_receipt`: the response id, the batch
id, and the (deterministically re-computed) total cost. -/
structure RespEntry where
  response_id : Option String
  batch_id : Option String
  total_cost : ℚ
deriving Repr

/-- One run directory: its basename and its response files in mtime order. -/
structure RunT where
  run_id : String
  entries : List RespEntry
deriving Repr

/-- One response file of the `_audit_run` loop: build the receipt from the
run id and the entry, then `_insert_or_update`. -/
def auditStep (run_id : String) (st : AuditDB × AuditIdx) (e : RespEntry) :
    AuditDB × AuditIdx :=
  ((insert_or_update st.1 st.2
      ⟨run_id, e.response_id, e.batch_id, e.total_cost⟩).1,
   (insert_or_update st.1 st.2
      ⟨run_id, e.response_id, e.batch_id, e.total_cost⟩).2.1)

/-- The per-run body of `_audit_run` (pricing_audit.py lines 159-200):
fallback when the run has no response files, else one
`_insert_or_update` per response file. -/
def audit_run (db : AuditDB) (idx : AuditIdx) (run : RunT) :
    AuditDB × AuditIdx :=
  match run.entries with
  | [] =>
      let r := maybe_insert_fallback db idx run.run_id
      (r.1, r.2.1)
  | _ :: _ => run.entries.foldl (auditStep run.run_id) (db, idx)

/-- One `audit()` pass (pricing_audit.py lines 56-78): load the dedup index
from the store, then process every run directory in order. -/
def audit (db : AuditDB) (tree : List RunT) : AuditDB :=
  (tree.foldl (fun st run => audit_run st.1 st.2 run)
    (db, existing_index db)).1

/-- Rows holding a given response id. -/
def countResp (rows : List DBRow) (r : String) : Nat :=
  (rows.filter (fun row => row.response_id == some r)).length

/-- Rows holding a given batch id. -/
def countBatch (rows : List DBRow) (b : String) : Nat :=
  (rows.filter (fun row => row.batch_id == some b)).length

/-- A response entry carrying exactly one dedup id (a truthy response id
and no batch id, or the reverse) — the shape every pipeline- or
batch-produced response file has. -/
def entryOneId (e : RespEntry) : Prop :=
  (truthy e.response_id = true ∧ e.batch_id = none) ∨
  (e.response_id = none ∧ truthy e.batch_id = true)

/-- The auditor-state invariant tying the dedup index to the store: row ids
are unique and below the autoincrement counter; a response id r has exactly
one row iff it is indexed, and its index entry points at that row (which
carries no batch id); symmetrically for batch ids. -/
def AuditInv (db : AuditDB) (idx : AuditIdx) : Prop :=
  (db.rows.map DBRow.id).Nodup ∧
  (∀ row ∈ db.rows, row.id < db.next_id) ∧
  (∀ r, countResp db.rows r =
    if (assocFind idx.resp r).isSome then 1 else 0) ∧
  (∀ b, countBatch db.rows b =
    if (assocFind idx.batch b).isSome then 1 else 0) ∧
  (∀ r info, assocFind idx.resp r = some info →
    ∃ row ∈ db.rows, row.id = info.id ∧ row.response_id = some r ∧
      row.batch_id = none) ∧
  (∀ b info, assocFind idx.batch b = some info →
    ∃ row ∈ db.rows, row.id = info.id ∧ row.batch_id = some b ∧
      row.response_id = none)

/- ===== Theorems ===== -/

/-- Claim C10: after `CircuitBreaker.on_success()` the breaker allows calls
immediately (for any non-negative clock reading) and the consecutive-failure
counter is zero, so a single success closes an open breaker even before its
cooldown has elapsed. -/
theorem breaker_on_success_closes (b : CircuitBreaker) (now : ℚ)
    (hnow : 0 ≤ now) :
    (b.on_success).allow now = true ∧ (b.on_success).count = 0 := by
  refine ⟨?_, rfl⟩
  simp [CircuitBreaker.on_success, CircuitBreaker.allow, hnow]

/-- Claim C10 witness: a breaker that is open far into the future is closed
by one success. -/
theorem breaker_on_success_closes_witness :
    (CircuitBreaker.mk 3 60 5 1000000).on_success.allow 5 = true ∧
      (CircuitBreaker.mk 3 60 5 1000000).on_success.count = 0 :=
  breaker_on_success_closes (CircuitBreaker.mk 3 60 5 1000000) 5 (by norm_num)

/- Helper lemmas about redaction. -/

mutual

theorem redact_bearerFree : (v : JVal) → bearerFree (redact v) = true
  | .null => rfl
  | .bool _ => rfl
  | .num _ => rfl
  | .str s => by
      simp only [redact]
      cases hb : strHasSubLower s "bearer "
      · simp [hb, bearerFree]
      · simp [hb, bearerFree]
        decide
  | .arr xs => by
      simpa [redact, bearerFree] using redactArr_bearerFree xs
  | .obj fields => by
      simpa [redact, bearerFree] using redactFields_bearerFree fields

theorem redactFields_bearerFree :
    (l : List (String × JVal)) → bearerFreeFields (redactFields l) = true
  | [] => rfl
  | (k, v) :: rest => by
      by_cases hk : lowerStr k ∈ REDACT_KEYS
      · simp [redactFields, hk, bearerFreeFields]
        exact ⟨by decide, redactFields_bearerFree rest⟩
      · simp [redactFields, hk, bearerFreeFields]
        exact ⟨redact_bearerFree v, redactFields_bearerFree rest⟩

theorem redactArr_bearerFree :
    (xs : List JVal) → bearerFreeArr (redactArr xs) = true
  | [] => rfl
  | v :: rest => by
      simp only [redactArr, bearerFreeArr, Bool.and_eq_true]
      exact ⟨redact_bearerFree v, redactArr_bearerFree rest⟩

end

mutual

theorem redact_secretKeys : (v : JVal) → secretKeysRedacted (redact v) = true
  | .null => rfl
  | .bool _ => rfl
  | .num _ => rfl
  | .str s => by
      simp only [redact]
      cases hb : strHasSubLower s "bearer "
      · simp [hb, secretKeysRedacted]
      · simp [hb, secretKeysRedacted]
  | .arr xs => by
      simpa [redact, secretKeysRedacted] using redactArr_secretKeys xs
  | .obj fields => by
      simpa [redact, secretKeysRedacted] using redactFields_secretKeys fields

theorem redactFields_secretKeys :
    (l : List (String × JVal)) → secretKeysRedactedFields (redactFields l) = true
  | [] => rfl
  | (k, v) :: rest => by
      by_cases hk : lowerStr k ∈ REDACT_KEYS
      · simp [redactFields, hk, secretKeysRedactedFields, isPlaceholder]
        exact redactFields_secretKeys rest
      · simp [redactFields, hk, secretKeysRedactedFields]
        exact ⟨redact_secretKeys v, redactFields_secretKeys rest⟩

theorem redactArr_secretKeys :
    (xs : List JVal) → secretKeysRedactedArr (redactArr xs) = true
  | [] => rfl
  | v :: rest => by
      simp only [redactArr, secretKeysRedactedArr, Bool.and_eq_true]
      exact ⟨redact_secretKeys v, redactArr_secretKeys rest⟩

end

mutual

theorem redact_idem : (v : JVal) → redact (redact v) = redact v
  | .null => rfl
  | .bool _ => rfl
  | .num _ => rfl
  | .str s => by
      simp only [redact]
      cases hb : strHasSubLower s "bearer "
      · simp [hb, redact]
      · have hp : strHasSubLower PLACEHOLDER "bearer " = false := by decide
        simp [hb, redact, hp]
  | .arr xs => by
      simp only [redact]
      exact congrArg JVal.arr (redactArr_idem xs)
  | .obj fields => by
      simp only [redact]
      exact congrArg JVal.obj (redactFields_idem fields)

theorem redactFields_idem :
    (l : List (String × JVal)) → redactFields (redactFields l) = redactFields l
  | [] => rfl
  | (k, v) :: rest => by
      by_cases hk : lowerStr k ∈ REDACT_KEYS
      · simp [redactFields, hk]
        exact redactFields_idem rest
      · simp [redactFields, hk]
        exact ⟨redact_idem v, redactFields_idem rest⟩

theorem redactArr_idem :
    (xs : List JVal) → redactArr (redactArr xs) = redactArr xs
  | [] => rfl
  | v :: rest => by
      simp only [redactArr]
      rw [redact_idem v, redactArr_idem rest]

end

/- Helper lemmas about association-list dictionaries. -/

theorem assocFind_assocSet {α : Type} (l : List (String × α)) (k' : String)
    (v : α) (k : String) :
    assocFind (assocSet l k' v) k = if k' == k then some v else assocFind l k := by
  induction l with
  | nil => simp [assocSet, assocFind]
  | cons hd tl ih =>
      obtain ⟨k'', v''⟩ := hd
      simp only [assocSet]
      by_cases h : k'' = k'
      · subst h
        by_cases hk : k'' = k <;> simp [hk, assocFind]
      · have hne : (k'' == k') = false := by simp [h]
        simp only [hne, Bool.false_eq_true, if_false, assocFind, ih]
        by_cases hk : k'' = k
        · subst hk
          have : ¬ k' = k'' := fun hh => h hh.symm
          simp [this]
        · simp [hk]

theorem assocFind_dictUpdate {α : Type} (upd base : List (String × α))
    (k : String) :
    assocFind (dictUpdate base upd) k =
      match lastBind upd k with
      | some v => some v
      | none => assocFind base k := by
  induction upd generalizing base with
  | nil => simp [dictUpdate, lastBind]
  | cons hd tl ih =>
      obtain ⟨k0, v0⟩ := hd
      have hstep : dictUpdate base ((k0, v0) :: tl) =
          dictUpdate (assocSet base k0 v0) tl := rfl
      rw [hstep, ih]
      simp only [lastBind]
      cases lastBind tl k with
      | some w => rfl
      | none =>
          simp only [assocFind_assocSet]
          by_cases hk : k0 = k <;> simp [hk]

theorem assocFind_redactFields (l : List (String × JVal)) (k : String) :
    assocFind (redactFields l) k =
      (assocFind l k).map
        (fun v => if REDACT_KEYS.contains (lowerStr k) then JVal.str PLACEHOLDER
                  else redact v) := by
  induction l with
  | nil => simp [redactFields, assocFind]
  | cons hd tl ih =>
      obtain ⟨k', v'⟩ := hd
      simp only [redactFields, assocFind]
      by_cases hk : k' = k
      · subst hk
        simp
      · simp [hk, ih]

theorem lastBind_redactFields (l : List (String × JVal)) (k : String) :
    lastBind (redactFields l) k =
      (lastBind l k).map
        (fun v => if REDACT_KEYS.contains (lowerStr k) then JVal.str PLACEHOLDER
                  else redact v) := by
  induction l with
  | nil => simp [redactFields, lastBind]
  | cons hd tl ih =>
      obtain ⟨k', v'⟩ := hd
      simp only [redactFields, lastBind, ih]
      cases lastBind tl k with
      | some w => simp
      | none =>
          by_cases hk : k' = k
          · subst hk
            simp
          · simp [hk]

/-- Claim C6: every event record appended to `events.jsonl` and every state
written to `run_state.json` is redacted: no string value contains the
`"Bearer "` marker (case-insensitively), and every key whose lowercased name
is in the secret set maps to the redaction placeholder.  The event type is a
dotted literal from the source, hence bearer-free. -/
theorem runlog_redaction_invariant (ts : Int) (typ : String) (data state : JVal)
    (htyp : strHasSubLower typ "bearer " = false) :
    bearerFree (eventRecord ts typ data) = true ∧
    secretKeysRedacted (eventRecord ts typ data) = true ∧
    bearerFree (writeState state) = true ∧
    secretKeysRedacted (writeState state) = true := by
  refine ⟨?_, ?_, redact_bearerFree state, redact_secretKeys state⟩
  · simp [eventRecord, bearerFree, bearerFreeFields, htyp,
      redact_bearerFree data]
  · have h1 : (lowerStr "ts" ∈ REDACT_KEYS) = False := by decide
    have h2 : (lowerStr "type" ∈ REDACT_KEYS) = False := by decide
    have h3 : (lowerStr "data" ∈ REDACT_KEYS) = False := by decide
    simp [eventRecord, secretKeysRedacted, secretKeysRedactedFields, h1, h2, h3,
      redact_secretKeys data]

/-- Claim C6 witness: a trace event holding an API key and a bearer string,
and a state holding an SSH password, are fully redacted. -/
theorem runlog_redaction_invariant_witness :
    bearerFree (eventRecord 0 "api.trace"
        (JVal.obj [("api_key", JVal.str "sk-live-123"),
                   ("msg", JVal.str "sent Bearer abc to server")])) = true ∧
    secretKeysRedacted (eventRecord 0 "api.trace"
        (JVal.obj [("api_key", JVal.str "sk-live-123"),
                   ("msg", JVal.str "sent Bearer abc to server")])) = true ∧
    bearerFree (writeState
        (JVal.obj [("status", JVal.str "running"),
                   ("ssh_password", JVal.str "hunter2")])) = true ∧
    secretKeysRedacted (writeState
        (JVal.obj [("status", JVal.str "running"),
                   ("ssh_password", JVal.str "hunter2")])) = true :=
  runlog_redaction_invariant 0 "api.trace"
    (JVal.obj [("api_key", JVal.str "sk-live-123"),
               ("msg", JVal.str "sent Bearer abc to server")])
    (JVal.obj [("status", JVal.str "running"),
               ("ssh_password", JVal.str "hunter2")])
    (by decide)

/-- Claim C7 counterexample: `update_state` is a shallow `dict.update`, not a
deep merge.  Stored state `{"progress": {"x": 1, "y": 2}}` patched with
`{"progress": {"x": 9}}` rewrites `progress` wholesale: the stored nested
key `"y"` is gone from the written `run_state.json`, contradicting the
claimed preservation of nested keys absent from the patch. -/
theorem update_state_not_deep_merge :
    assocFind (stateFields (update_state
        [("progress", JVal.obj [("x", JVal.num 1), ("y", JVal.num 2)])]
        [("progress", JVal.obj [("x", JVal.num 9)])])) "progress" =
      some (JVal.obj [("x", JVal.num 9)]) ∧
    (match assocFind (stateFields (update_state
        [("progress", JVal.obj [("x", JVal.num 1), ("y", JVal.num 2)])]
        [("progress", JVal.obj [("x", JVal.num 9)])])) "progress" with
     | some (JVal.obj nested) => assocFind nested "y"
     | _ => none) = none := by
  constructor
  · rfl
  · rfl

/-- Claim C7 (amended): `update_state` merges the redacted patch into the
stored state shallowly.  For every non-secret top-level key: a key bound in
the patch ends up bound to the redaction of the patch value (nested
dictionaries are replaced wholesale), and a key absent from the patch keeps
its stored value (re-redacted by the state write). -/
theorem update_state_shallow_merge (stored patch : List (String × JVal))
    (k : String) (hk : lowerStr k ∉ REDACT_KEYS) :
    (∀ v, lastBind patch k = some v →
        assocFind (stateFields (update_state stored patch)) k =
          some (redact v)) ∧
    (lastBind patch k = none →
        assocFind (stateFields (update_state stored patch)) k =
          (assocFind stored k).map redact) := by
  have hfields : stateFields (update_state stored patch) =
      redactFields (dictUpdate stored (redactFields patch)) := rfl
  constructor
  · intro v hv
    rw [hfields, assocFind_redactFields, assocFind_dictUpdate,
      lastBind_redactFields, hv]
    simp [hk, redact_idem]
  · intro hv
    rw [hfields, assocFind_redactFields, assocFind_dictUpdate,
      lastBind_redactFields, hv]
    simp [hk]

/-- Claim C7 witness: patching `{"status": "running"}` over a state that
also holds `"model"` keeps `"model"` and replaces `"status"`. -/
theorem update_state_shallow_merge_witness :
    assocFind (stateFields (update_state
        [("status", JVal.str "created"), ("model", JVal.str "gpt-4o")]
        [("status", JVal.str "running")])) "status" =
      some (redact (JVal.str "running")) ∧
    assocFind (stateFields (update_state
        [("status", JVal.str "created"), ("model", JVal.str "gpt-4o")]
        [("status", JVal.str "running")])) "model" =
      (assocFind [("status", JVal.str "created"), ("model", JVal.str "gpt-4o")]
        "model").map redact :=
  ⟨(update_state_shallow_merge
      [("status", JVal.str "created"), ("model", JVal.str "gpt-4o")]
      [("status", JVal.str "running")] "status" (by decide)).1
      (JVal.str "running") rfl,
   (update_state_shallow_merge
      [("status", JVal.str "created"), ("model", JVal.str "gpt-4o")]
      [("status", JVal.str "running")] "model" (by decide)).2 rfl⟩

/-- Claim C8: `parse_json_strict` returns the parsed object when the
stripped text parses to a JSON object; produces `ContractError` for every
input parsing to a non-object JSON value; and on parse failure falls back to
the greedy first-to-last-brace substring, returning it when it parses to an
object and raising `ContractError` otherwise.  `loads` is Python
`json.loads`; its only assumed property is that it returns the `null` value
for exactly the literal text `"null"`. -/
theorem parse_json_strict_spec (loads : String → Option JVal) (text : String)
    (hnull : ∀ s, loads s = some JVal.null → s = "null") :
    (∀ fields, loads (pyStrip text) = some (JVal.obj fields) →
        parse_json_strict loads text = Except.ok (JVal.obj fields)) ∧
    (∀ v, loads (pyStrip text) = some v → isObjVal v = false →
        ∃ msg, parse_json_strict loads text = Except.error msg) ∧
    (loads (pyStrip text) = none →
        parse_json_strict loads text =
          match greedyJsonSub (pyStrip text) with
          | some sub =>
              match loads sub with
              | some (JVal.obj fields) => Except.ok (JVal.obj fields)
              | _ => Except.error MSG_NOT_VALID_JSON
          | none => Except.error MSG_NOT_VALID_JSON) := by
  refine ⟨?_, ?_, ?_⟩
  · intro fields h
    simp [parse_json_strict, h]
  · intro v h hv
    cases v with
    | null =>
        have ht : pyStrip text = "null" := hnull _ h
        rw [ht] at h
        have hg : greedyJsonSub "null" = none := by decide
        exact ⟨MSG_NOT_VALID_JSON, by simp [parse_json_strict, ht, h, hg]⟩
    | bool b => exact ⟨MSG_MUST_BE_OBJECT, by simp [parse_json_strict, h]⟩
    | num n => exact ⟨MSG_MUST_BE_OBJECT, by simp [parse_json_strict, h]⟩
    | str s => exact ⟨MSG_MUST_BE_OBJECT, by simp [parse_json_strict, h]⟩
    | arr xs => exact ⟨MSG_MUST_BE_OBJECT, by simp [parse_json_strict, h]⟩
    | obj fields => simp [isObjVal] at hv
  · intro h
    simp [parse_json_strict, h]

/-- Claim C8 witness: under a parser that recognizes only `[1,2,3]` (as a
JSON array), `parse_json_strict " [1,2,3] "` raises `ContractError`. -/
theorem parse_json_strict_spec_witness :
    ∃ msg, parse_json_strict
        (fun s => if s = "[1,2,3]"
          then some (JVal.arr [JVal.num 1, JVal.num 2, JVal.num 3]) else none)
        " [1,2,3] " = Except.error msg :=
  (parse_json_strict_spec
      (fun s => if s = "[1,2,3]"
        then some (JVal.arr [JVal.num 1, JVal.num 2, JVal.num 3]) else none)
      " [1,2,3] "
      (by intro s h; by_cases hs : s = "[1,2,3]" <;> simp [hs] at h)).2.1
    (JVal.arr [JVal.num 1, JVal.num 2, JVal.num 3]) rfl rfl

/-- Claim C9 counterexample: a regular non-empty, non-binary, non-sensitive
file whose `sha256_file` call raised (filescan.py lines 114-118 swallow the
exception and keep `sha = None`) is still marked uploadable, contradicting
the claimed non-None `sha256` for every uploadable item. -/
theorem scan_uploadable_sha_none :
    (classifyFile ⟨"src/app.py", "app.py", true, 5, false, false, false,
        false, false, false, false, false, 10485760, false, false,
        none⟩).uploadable = true ∧
    (classifyFile ⟨"src/app.py", "app.py", true, 5, false, false, false,
        false, false, false, false, false, 10485760, false, false,
        none⟩).sha256 = none := by
  constructor
  · rfl
  · rfl

/-- Claim C9 (amended): every item `scan_tree` marks uploadable has reason
`"ok"`, `sensitive=false`, a size strictly between 0 and `max_size_bytes`,
and carries exactly the outcome of the hash computation (which is `None`
only when `sha256_file` raised); a zero-byte file that passes the glob and
extension gates is never uploadable and gets reason `"empty_file"`. -/
theorem scan_uploadable_invariants (f : FileFacts) :
    ((classifyFile f).uploadable = true →
        (classifyFile f).reason = "ok" ∧ (classifyFile f).sensitive = false ∧
        0 < f.size ∧ f.size ≤ f.maxSizeBytes ∧
        (classifyFile f).sha256 = f.hashResult) ∧
    (f.statOk = true →
        (f.allowGlobs && !f.matchesAllowGlob) = false →
        (f.denyGlobs && f.matchesDenyGlob) = false →
        (f.allowExts && !f.extInAllow) = false →
        (f.denyExts && f.extInDeny) = false →
        f.size = 0 →
        (classifyFile f).reason = "empty_file" ∧
        (classifyFile f).uploadable = false) := by
  unfold classifyFile
  split_ifs with h1 h2 h3 h4 h5 h6 h7 h8 h9 <;>
    constructor <;>
    intro hx <;>
    simp_all <;>
    omega

/-- Claim C9 witness: a healthy 5-byte text file with a computed hash is
uploadable with all invariants, and the same file at 0 bytes is rejected as
`empty_file`. -/
theorem scan_uploadable_invariants_witness :
    ((classifyFile ⟨"src/app.py", "app.py", true, 5, false, false, false,
        false, false, false, false, false, 10485760, false, false,
        some "abc"⟩).reason = "ok" ∧
     (classifyFile ⟨"src/app.py", "app.py", true, 5, false, false, false,
        false, false, false, false, false, 10485760, false, false,
        some "abc"⟩).sensitive = false ∧
     0 < 5 ∧ (5 : Nat) ≤ 10485760 ∧
     (classifyFile ⟨"src/app.py", "app.py", true, 5, false, false, false,
        false, false, false, false, false, 10485760, false, false,
        some "abc"⟩).sha256 = some "abc") ∧
    ((classifyFile ⟨"src/app.py", "app.py", true, 0, false, false, false,
        false, false, false, false, false, 10485760, false, false,
        none⟩).reason = "empty_file" ∧
     (classifyFile ⟨"src/app.py", "app.py", true, 0, false, false, false,
        false, false, false, false, false, 10485760, false, false,
        none⟩).uploadable = false) :=
  ⟨(scan_uploadable_invariants _).1 rfl,
   (scan_uploadable_invariants _).2 rfl rfl rfl rfl rfl rfl⟩

/-- Claim C2 counterexample: a transient `HTTP 429` failure of the tools
probe leaves `supports_tools` (and `supports_file_search`) **false**, with
only an inconclusive note recorded — the error is not an explicit
schema/param rejection, contradicting the claim that a transient error
leaves every `supports_*` flag true. -/
theorem probe_transient_disables_tools :
    (probeOne ⟨.ok "resp_1", .ok "resp_2", .ok "resp_3", true,
        .fail "HTTP 429: Too Many Requests"⟩).supports_tools = false ∧
    (probeOne ⟨.ok "resp_1", .ok "resp_2", .ok "resp_3", true,
        .fail "HTTP 429: Too Many Requests"⟩).supports_file_search = false ∧
    errIndicatesParamUnsupported "HTTP 429: Too Many Requests" "tools"
      = false ∧
    (probeOne ⟨.ok "resp_1", .ok "resp_2", .ok "resp_3", true,
        .fail "HTTP 429: Too Many Requests"⟩).errors =
      [("tools_inconclusive", "HTTP 429: Too Many Requests")] := by
  refine ⟨rfl, rfl, by decide, rfl⟩

/-- Claim C2 (amended): for a model whose basic probe succeeded,
`supports_previous_response_id` and `supports_temperature` become false only
when the corresponding probe failed with an error matching the explicit
rejection heuristic (recorded under the `*_param` key); a non-matching
(transient) failure leaves them true and records only an `*_inconclusive`
note.  `supports_tools`/`supports_file_search` start false and become true
only on a successful tools probe; a non-matching failure leaves them false
and records a `tools_inconclusive` note. -/
theorem probe_flags_follow_rejection_heuristic (r : ProbeRun) (id : String)
    (hb : r.basic = .ok id) :
    ((probeOne r).supports_previous_response_id = false →
        ∃ e, r.prev = .fail e ∧
          errIndicatesParamUnsupported e "previous_response_id" = true ∧
          ("previous_response_id_param", e) ∈ (probeOne r).errors) ∧
    ((probeOne r).supports_temperature = false →
        ∃ e, r.temp = .fail e ∧
          errIndicatesParamUnsupported e "temperature" = true ∧
          ("temperature_param", e) ∈ (probeOne r).errors) ∧
    ((probeOne r).supports_tools = true →
        r.vsReady = true ∧ ∃ i, r.tools = .ok i) ∧
    (∀ e, id ≠ "" → r.prev = .fail e → e ≠ "" →
        errIndicatesParamUnsupported e "previous_response_id" = false →
        (probeOne r).supports_previous_response_id = true ∧
        ("previous_response_id_inconclusive", e) ∈ (probeOne r).errors) ∧
    (∀ e, r.temp = .fail e → e ≠ "" →
        errIndicatesParamUnsupported e "temperature" = false →
        (probeOne r).supports_temperature = true ∧
        ("temperature_inconclusive", e) ∈ (probeOne r).errors) ∧
    (∀ e, r.vsReady = true → r.tools = .fail e →
        errIndicatesParamUnsupported e "tools" = false →
        (probeOne r).supports_tools = false ∧
        (probeOne r).supports_file_search = false ∧
        ("tools_inconclusive", if e = "" then "unknown" else e)
          ∈ (probeOne r).errors) := by
  simp only [probeOne, hb]
  refine ⟨?_, ?_, ?_, ?_, ?_, ?_⟩
  · intro h
    by_cases hid : id = ""
    · simp [probePrevFlag, hid] at h
    · cases hp : r.prev with
      | ok i => simp [probePrevFlag, hid, hp] at h
      | fail e =>
          by_cases he : e = ""
          · simp [probePrevFlag, hid, hp, he] at h
          · by_cases hi : errIndicatesParamUnsupported e "previous_response_id" = true
            · exact ⟨e, rfl, hi, by simp [probePrevFlag, hid, he, hi]⟩
            · simp [probePrevFlag, hid, hp, he, hi] at h
  · intro h
    cases ht : r.temp with
    | ok i => simp [probeTempFlag, ht] at h
    | fail e =>
        by_cases he : e = ""
        · simp [probeTempFlag, ht, he] at h
        · by_cases hi : errIndicatesParamUnsupported e "temperature" = true
          · exact ⟨e, rfl, hi, by simp [probeTempFlag, ht, he, hi]⟩
          · simp [probeTempFlag, ht, he, hi] at h
  · intro h
    by_cases hv : r.vsReady = true
    · cases htl : r.tools with
      | ok i => exact ⟨hv, i, rfl⟩
      | fail e =>
          by_cases he : e = ""
          · simp [probeToolsFlags, hv, htl, he] at h
          · by_cases hi : errIndicatesParamUnsupported e "tools" = true
            · simp [probeToolsFlags, hv, htl, he, hi] at h
            · simp [probeToolsFlags, hv, htl, he, hi] at h
    · simp [probeToolsFlags, hv] at h
  · intro e hid hp he hi
    constructor
    · simp [probePrevFlag, hid, hp, he, hi]
    · simp [probePrevFlag, hid, hp, he, hi]
  · intro e ht he hi
    constructor
    · simp [probeTempFlag, ht, he, hi]
    · simp [probeTempFlag, ht, he, hi]
  · intro e hv htl hi
    refine ⟨?_, ?_, ?_⟩
    · simp [probeToolsFlags, hv, htl, hi]
    · simp [probeToolsFlags, hv, htl, hi]
    · simp [probeToolsFlags, hv, htl, hi]

/-- Claim C2 witness: with a successful basic probe, transient `HTTP 5xx`
and `HTTP 429` failures of the continuation and temperature probes leave
both flags true with inconclusive notes, and a timeout of the tools probe
leaves tools/file_search false with an inconclusive note. -/
theorem probe_flags_follow_rejection_heuristic_witness :
    ((probeOne ⟨.ok "r1", .fail "HTTP 500: server error",
        .fail "HTTP 429: Too Many Requests", true,
        .fail "connection timed out"⟩).supports_previous_response_id = true ∧
      ("previous_response_id_inconclusive", "HTTP 500: server error") ∈
        (probeOne ⟨.ok "r1", .fail "HTTP 500: server error",
          .fail "HTTP 429: Too Many Requests", true,
          .fail "connection timed out"⟩).errors) ∧
    ((probeOne ⟨.ok "r1", .fail "HTTP 500: server error",
        .fail "HTTP 429: Too Many Requests", true,
        .fail "connection timed out"⟩).supports_temperature = true ∧
      ("temperature_inconclusive", "HTTP 429: Too Many Requests") ∈
        (probeOne ⟨.ok "r1", .fail "HTTP 500: server error",
          .fail "HTTP 429: Too Many Requests", true,
          .fail "connection timed out"⟩).errors) ∧
    ((probeOne ⟨.ok "r1", .fail "HTTP 500: server error",
        .fail "HTTP 429: Too Many Requests", true,
        .fail "connection timed out"⟩).supports_tools = false ∧
      (probeOne ⟨.ok "r1", .fail "HTTP 500: server error",
        .fail "HTTP 429: Too Many Requests", true,
        .fail "connection timed out"⟩).supports_file_search = false ∧
      ("tools_inconclusive",
          if "connection timed out" = "" then "unknown"
          else "connection timed out") ∈
        (probeOne ⟨.ok "r1", .fail "HTTP 500: server error",
          .fail "HTTP 429: Too Many Requests", true,
          .fail "connection timed out"⟩).errors) :=
  ⟨(probe_flags_follow_rejection_heuristic
      ⟨.ok "r1", .fail "HTTP 500: server error",
        .fail "HTTP 429: Too Many Requests", true,
        .fail "connection timed out"⟩ "r1" rfl).2.2.2.1
      "HTTP 500: server error" (by decide) rfl (by decide) (by decide),
   (probe_flags_follow_rejection_heuristic
      ⟨.ok "r1", .fail "HTTP 500: server error",
        .fail "HTTP 429: Too Many Requests", true,
        .fail "connection timed out"⟩ "r1" rfl).2.2.2.2.1
      "HTTP 429: Too Many Requests" rfl (by decide) (by decide),
   (probe_flags_follow_rejection_heuristic
      ⟨.ok "r1", .fail "HTTP 500: server error",
        .fail "HTTP 429: Too Many Requests", true,
        .fail "connection timed out"⟩ "r1" rfl).2.2.2.2.2
      "connection timed out" rfl rfl (by decide)⟩

/-- Claim C1: evaluation at the failing input.  `_save_out_files` joins the
response-declared path onto `out_dir` with a bare `os.path.join` — no
`validate_paths` and no `safe_join_under_root` — so the relative path
`../evil.txt` lands the written file at `/tmp/evil.txt`, outside
`out_dir=/tmp/out`, while `safe_join_under_root` (which the security
regression test requires to reject traversal) would have refused it and
accepts an honest nested path. -/
theorem save_out_files_escapes_out_dir :
    save_out_files_dst ["tmp", "out"] "../evil.txt" = ["tmp", "evil.txt"] ∧
    strictlyInside ["tmp", "out"]
      (save_out_files_dst ["tmp", "out"] "../evil.txt") = false ∧
    safe_join_under_root ["tmp", "out"] "../evil.txt" = none ∧
    safe_join_under_root ["tmp", "out"] "nested/file.txt" =
      some ["tmp", "out", "nested", "file.txt"] := by
  refine ⟨rfl, rfl, rfl, rfl⟩

/-- Claim C4 counterexample: on the cooperative stop the worker writes
`run_state.status = "stopped"`, not the claimed `"stopped_by_user"`
(pipeline.py line 330; the string `stopped_by_user` only reaches the
fallback receipt's notes). -/
theorem stop_status_not_stopped_by_user :
    (stopHandler ⟨false, 1200, 3400, "gpt-4o-mini", "GENERATE", false, false⟩
      ⟨builtin_fallback_rows, none, false, ""⟩).1 = "stopped" ∧
    ¬((stopHandler ⟨false, 1200, 3400, "gpt-4o-mini", "GENERATE", false,
        false⟩
      ⟨builtin_fallback_rows, none, false, ""⟩).1 = "stopped_by_user") := by
  exact ⟨rfl, by decide⟩

/-- Claim C4 (amended): on the cooperative stop the worker records status
`"stopped"` in `run_state.json`, and — when no receipt has been recorded
yet — emits a fallback receipt whose token counts are the worker's
accumulated `_total_input_tokens`/`_total_output_tokens` counters (which
are advanced only when a stage receipt is recorded), with flow type
`RUN_STOPPED` and the reason `stopped_by_user` in the notes; when a receipt
already exists nothing is emitted. -/
theorem stop_handler_spec (ctx : StopCtx) (pt : PriceTableState) :
    (stopHandler ctx pt).1 = "stopped" ∧
    (ctx.has_receipt = false →
        ∃ rc, (stopHandler ctx pt).2 = some rc ∧
          rc.input_tokens = ctx.total_input_tokens ∧
          rc.output_tokens = ctx.total_output_tokens ∧
          rc.flow_type = "RUN_STOPPED" ∧
          rc.notes = "Fallback receipt (stopped_by_user)" ∧
          rc.response_id = none ∧ rc.batch_id = none) ∧
    (ctx.has_receipt = true → (stopHandler ctx pt).2 = none) := by
  refine ⟨rfl, ?_, ?_⟩
  · intro h
    have heq : (stopHandler ctx pt).2 =
        some { mode := ctx.mode
               flow_type := "RUN_STOPPED"
               response_id := none
               batch_id := none
               input_tokens := ctx.total_input_tokens
               output_tokens := ctx.total_output_tokens
               total_cost := (compute_cost (fallbackPriceRow pt ctx.model)
                 ctx.total_input_tokens ctx.total_output_tokens ctx.send_as_c
                 ctx.used_file_search 0).1
               notes := "Fallback receipt (" ++ "stopped_by_user" ++ ")" } := by
      simp [stopHandler, ensure_receipt_on_failure, h]
    exact ⟨_, heq, rfl, rfl, rfl, rfl, rfl, rfl⟩
  · intro h
    simp [stopHandler, ensure_receipt_on_failure, h]

/-- Claim C4 witness: a worker stopped mid-run with 1200/3400 accumulated
tokens and no receipt yet writes status `stopped` and emits a fallback
receipt carrying exactly those counts. -/
theorem stop_handler_spec_witness :
    (stopHandler ⟨false, 1200, 3400, "gpt-4o-mini", "GENERATE", false, false⟩
      ⟨builtin_fallback_rows, none, false, ""⟩).1 = "stopped" ∧
    ∃ rc, (stopHandler ⟨false, 1200, 3400, "gpt-4o-mini", "GENERATE", false,
        false⟩
      ⟨builtin_fallback_rows, none, false, ""⟩).2 = some rc ∧
      rc.input_tokens = 1200 ∧ rc.output_tokens = 3400 ∧
      rc.flow_type = "RUN_STOPPED" ∧
      rc.notes = "Fallback receipt (stopped_by_user)" ∧
      rc.response_id = none ∧ rc.batch_id = none :=
  ⟨(stop_handler_spec ⟨false, 1200, 3400, "gpt-4o-mini", "GENERATE", false,
      false⟩ ⟨builtin_fallback_rows, none, false, ""⟩).1,
   (stop_handler_spec ⟨false, 1200, 3400, "gpt-4o-mini", "GENERATE", false,
      false⟩ ⟨builtin_fallback_rows, none, false, ""⟩).2.1 rfl⟩

/- Generic association-list lemmas shared by the price-table and receipt
developments. -/

theorem assocFind_isSome_of_mem {α : Type} {l : List (String × α)}
    {k : String} {v : α} (h : (k, v) ∈ l) :
    (assocFind l k).isSome = true := by
  induction l with
  | nil => cases h
  | cons hd tl ih =>
      obtain ⟨k', v'⟩ := hd
      rcases List.mem_cons.mp h with h1 | h2
      · rw [Prod.mk.injEq] at h1
        simp [assocFind, h1.1.symm]
      · by_cases hk : k' = k
        · simp [assocFind, hk]
        · simp [assocFind, hk, ih h2]

theorem mem_of_assocFind {α : Type} {l : List (String × α)} {k : String}
    {v : α} (h : assocFind l k = some v) : (k, v) ∈ l := by
  induction l with
  | nil => simp [assocFind] at h
  | cons hd tl ih =>
      obtain ⟨k', v'⟩ := hd
      by_cases hk : k' = k
      · subst hk
        simp [assocFind] at h
        simp [h]
      · simp [assocFind, hk] at h
        exact List.mem_cons_of_mem _ (ih h)

theorem assocFind_eq_of_mem_nodup {α : Type} {l : List (String × α)}
    (hnd : (l.map Prod.fst).Nodup) {k : String} {v : α} (h : (k, v) ∈ l) :
    assocFind l k = some v := by
  induction l with
  | nil => cases h
  | cons hd tl ih =>
      obtain ⟨k', v'⟩ := hd
      simp only [List.map_cons, List.nodup_cons] at hnd
      rcases List.mem_cons.mp h with h1 | h2
      · rw [Prod.mk.injEq] at h1
        simp [assocFind, h1.1.symm, h1.2.symm]
      · have hkne : k' ≠ k := by
          intro he
          exact hnd.1 (he ▸ (List.mem_map.mpr ⟨(k, v), h2, rfl⟩))
        simp [assocFind, hkne]
        exact ih hnd.2 h2

theorem assocFind_none_iff {α : Type} (l : List (String × α)) (k : String) :
    assocFind l k = none ↔ k ∉ l.map Prod.fst := by
  induction l with
  | nil => simp [assocFind]
  | cons hd tl ih =>
      obtain ⟨k', v'⟩ := hd
      by_cases hk : k' = k
      · simp [assocFind, hk]
      · have hne : ¬ k = k' := fun he => hk he.symm
        simp [assocFind, hk, ih, hne]

theorem lastBind_none_iff {α : Type} (l : List (String × α)) (k : String) :
    lastBind l k = none ↔ assocFind l k = none := by
  induction l with
  | nil => simp [lastBind, assocFind]
  | cons hd tl ih =>
      obtain ⟨k', v'⟩ := hd
      simp only [lastBind, assocFind]
      cases hlb : lastBind tl k with
      | some w =>
          have hne : assocFind tl k ≠ none := fun hc => by
            simp [ih.mpr hc] at hlb
          by_cases hk : k' = k <;> simp [hk, hlb, hne]
      | none =>
          rw [hlb] at ih
          by_cases hk : k' = k <;> simp [hk, ← ih]

theorem lastBind_mem {α : Type} {l : List (String × α)} {k : String} {v : α}
    (h : lastBind l k = some v) : (k, v) ∈ l := by
  induction l with
  | nil => simp [lastBind] at h
  | cons hd tl ih =>
      obtain ⟨k', v'⟩ := hd
      simp only [lastBind] at h
      cases hlb : lastBind tl k with
      | some w =>
          rw [hlb] at h
          simp at h
          exact List.mem_cons_of_mem _ (ih (hlb.trans (by rw [h])))
      | none =>
          rw [hlb] at h
          by_cases hk : k' = k
          · simp [hk] at h
            simp [hk, h]
          · simp [hk] at h

theorem lastBind_eq_assocFind_of_nodup {α : Type} {l : List (String × α)}
    (hnd : (l.map Prod.fst).Nodup) (k : String) :
    lastBind l k = assocFind l k := by
  induction l with
  | nil => rfl
  | cons hd tl ih =>
      obtain ⟨k', v'⟩ := hd
      simp only [List.map_cons, List.nodup_cons] at hnd
      simp only [lastBind, assocFind]
      cases hlb : lastBind tl k with
      | some w =>
          have hmem := lastBind_mem hlb
          have hkne : k' ≠ k := by
            intro he
            exact hnd.1 (he ▸ (List.mem_map.mpr ⟨(k, w), hmem, rfl⟩))
          rw [← ih hnd.2, hlb]
          simp [hkne]
      | none =>
          rw [← ih hnd.2, hlb]

theorem assocFind_append {α : Type} (l1 l2 : List (String × α)) (k : String) :
    assocFind (l1 ++ l2) k =
      match assocFind l1 k with
      | some v => some v
      | none => assocFind l2 k := by
  induction l1 with
  | nil => simp [assocFind]
  | cons hd tl ih =>
      obtain ⟨k', v'⟩ := hd
      by_cases hk : k' = k <;> simp [assocFind, hk, ih]

theorem assocSet_of_none {α : Type} {l : List (String × α)} {k : String}
    (h : assocFind l k = none) (v : α) : assocSet l k v = l ++ [(k, v)] := by
  induction l with
  | nil => rfl
  | cons hd tl ih =>
      obtain ⟨k', v'⟩ := hd
      by_cases hk : k' = k
      · simp [assocFind, hk] at h
      · simp [assocFind, hk] at h
        simp [assocSet, hk, ih h]

theorem map_fst_assocSet {α : Type} (l : List (String × α)) (k : String)
    (v : α) :
    (assocSet l k v).map Prod.fst =
      if (assocFind l k).isSome then l.map Prod.fst
      else l.map Prod.fst ++ [k] := by
  induction l with
  | nil => simp [assocSet, assocFind]
  | cons hd tl ih =>
      obtain ⟨k', v'⟩ := hd
      by_cases hk : k' = k
      · simp [assocSet, assocFind, hk]
      · have hkb : (k' == k) = false := by simp [hk]
        by_cases hs : (assocFind tl k).isSome = true <;>
          simp [assocSet, assocFind, hkb, hs, ih]

theorem mem_assocSet {α : Type} {l : List (String × α)} {k : String} {v : α}
    {p : String × α} (h : p ∈ assocSet l k v) : p = (k, v) ∨ p ∈ l := by
  induction l with
  | nil =>
      simp [assocSet] at h
      simp [h]
  | cons hd tl ih =>
      obtain ⟨k', v'⟩ := hd
      by_cases hk : k' = k
      · simp [assocSet, hk] at h
        rcases h with h1 | h2
        · left; simp [h1]
        · right; exact List.mem_cons_of_mem _ h2
      · simp [assocSet, hk] at h
        rcases h with h1 | h2
        · right; simp [h1]
        · rcases ih h2 with h3 | h4
          · left; exact h3
          · right; exact List.mem_cons_of_mem _ h4

/- Price-table well-formedness and round-trip lemmas. -/

theorem rows_equal_refl (r : PriceRow) : rows_equal r r = true := by
  simp [rows_equal]

theorem wfRows_builtin : wfRows builtin_fallback_rows := by
  constructor
  · decide
  · decide

theorem wfRows_assocSet {l : List (String × PriceRow)} (hl : wfRows l)
    {k : String} {v : PriceRow} (hv : v.model = k) (hk : k ≠ "") :
    wfRows (assocSet l k v) := by
  obtain ⟨hnd, hall⟩ := hl
  constructor
  · rw [map_fst_assocSet]
    by_cases hs : (assocFind l k).isSome = true
    · simp [hs, hnd]
    · have hkm : k ∉ l.map Prod.fst := by
        rw [← assocFind_none_iff]
        cases hx : assocFind l k
        · rfl
        · rw [hx] at hs
          simp at hs
      simp [hs, List.nodup_append, hnd, hkm]
  · intro p hp
    rcases mem_assocSet hp with h1 | h2
    · subst h1
      exact ⟨hv, hk⟩
    · exact hall p h2

theorem wfRows_append_missing {l : List (String × PriceRow)} (hl : wfRows l)
    {k : String} {v : PriceRow} (hnone : assocFind l k = none)
    (hv : v.model = k) (hk : k ≠ "") : wfRows (l ++ [(k, v)]) := by
  obtain ⟨hnd, hall⟩ := hl
  have hkm : k ∉ l.map Prod.fst := (assocFind_none_iff l k).mp hnone
  constructor
  · simp [List.nodup_append, hnd, hkm]
  · intro p hp
    rcases List.mem_append.mp hp with h1 | h2
    · exact hall p h1
    · simp at h2
      subst h2
      exact ⟨hv, hk⟩

theorem wfRows_dictUpdate {base upd : List (String × PriceRow)}
    (hb : wfRows base)
    (hu : ∀ p ∈ upd, p.2.model = p.1 ∧ p.1 ≠ "") :
    wfRows (dictUpdate base upd) := by
  induction upd generalizing base with
  | nil => exact hb
  | cons hd tl ih =>
      have hstep : dictUpdate base (hd :: tl) =
          dictUpdate (assocSet base hd.1 hd.2) tl := rfl
      rw [hstep]
      have hhd := hu hd (List.mem_cons_self hd tl)
      exact ih (wfRows_assocSet hb hhd.1 hhd.2)
        (fun p hp => hu p (List.mem_cons_of_mem _ hp))

theorem wfRows_setDefaults {base ds : List (String × PriceRow)}
    (hb : wfRows base)
    (hd : ∀ p ∈ ds, p.2.model = p.1 ∧ p.1 ≠ "") :
    wfRows (setDefaults base ds) := by
  induction ds generalizing base with
  | nil => exact hb
  | cons kv tl ih =>
      have hstep : setDefaults base (kv :: tl) =
          setDefaults
            (if (assocFind base kv.1).isSome then base else base ++ [kv])
            tl := rfl
      rw [hstep]
      have hkv := hd kv (List.mem_cons_self kv tl)
      by_cases hs : (assocFind base kv.1).isSome = true
      · rw [if_pos hs]
        exact ih hb (fun p hp => hd p (List.mem_cons_of_mem _ hp))
      · rw [if_neg hs]
        have hnone : assocFind base kv.1 = none := by
          cases hx : assocFind base kv.1
          · rfl
          · rw [hx] at hs
            simp at hs
        exact ih (wfRows_append_missing hb hnone hkv.1 hkv.2)
          (fun p hp => hd p (List.mem_cons_of_mem _ hp))

theorem setDefaults_eq_of_present {α : Type}
    {base ds : List (String × α)}
    (h : ∀ p ∈ ds, (assocFind base p.1).isSome = true) :
    setDefaults base ds = base := by
  induction ds with
  | nil => rfl
  | cons kv tl ih =>
      have hstep : setDefaults base (kv :: tl) =
          setDefaults
            (if (assocFind base kv.1).isSome then base else base ++ [kv])
            tl := rfl
      rw [hstep, if_pos (h kv (List.mem_cons_self kv tl))]
      exact ih (fun p hp => h p (List.mem_cons_of_mem _ hp))

theorem assocFind_setDefaults {α : Type} (ds base : List (String × α))
    (k : String) :
    assocFind (setDefaults base ds) k =
      match assocFind base k with
      | some v => some v
      | none => assocFind ds k := by
  induction ds generalizing base with
  | nil =>
      cases hb : assocFind base k <;> simp [setDefaults, assocFind, hb]
  | cons kv tl ih =>
      have hstep : setDefaults base (kv :: tl) =
          setDefaults
            (if (assocFind base kv.1).isSome then base else base ++ [kv])
            tl := rfl
      rw [hstep]
      by_cases hp : (assocFind base kv.1).isSome = true
      · rw [if_pos hp, ih]
        cases hb : assocFind base k with
        | some w => simp
        | none =>
            by_cases hk : kv.1 = k
            · rw [hk, hb] at hp
              simp at hp
            · have hkb : (kv.1 == k) = false := by simp [hk]
              simp [assocFind, hkb]
      · rw [if_neg hp, ih, assocFind_append]
        cases hb : assocFind base k with
        | some w => simp
        | none =>
            by_cases hk : kv.1 = k
            · simp [assocFind, hk]
            · have hkb : (kv.1 == k) = false := by simp [hk]
              simp [assocFind, hkb]

theorem load_cache_aux (l : List (String × PriceRow)) :
    ∀ acc : List (String × PriceRow),
    (∀ p ∈ l, p.2.model = p.1 ∧ p.1 ≠ "") →
    (l.map Prod.fst).Nodup →
    (∀ p ∈ l, assocFind acc p.1 = none) →
    (l.map Prod.snd).foldl
      (fun acc r => if r.model == "" then acc else assocSet acc r.model r)
      acc = acc ++ l := by
  induction l with
  | nil =>
      intro acc _ _ _
      simp
  | cons hd tl ih =>
      intro acc hall hnd hdisj
      obtain ⟨k, q⟩ := hd
      obtain ⟨hm, hk⟩ := hall (k, q) (List.mem_cons_self _ _)
      simp only [List.map_cons, List.foldl_cons]
      have hstep : (if q.model == "" then acc else assocSet acc q.model q) =
          assocSet acc k q := by
        rw [hm]
        simp [hk]
      rw [hstep, assocSet_of_none (hdisj (k, q) (List.mem_cons_self _ _)) q]
      simp only [List.map_cons, List.nodup_cons] at hnd
      rw [ih (acc ++ [(k, q)]) (fun p hp => hall p (List.mem_cons_of_mem _ hp))
        hnd.2 ?_]
      · simp
      · intro p hp
        rw [assocFind_append, hdisj p (List.mem_cons_of_mem _ hp)]
        have hne : k ≠ p.1 := fun he =>
          hnd.1 (he ▸ List.mem_map.mpr ⟨p, hp, rfl⟩)
        simp [assocFind, hne]

theorem save_load_rows_id {st : PriceTableState} (h : wfRows st.rows) :
    (save_load st).rows = st.rows := by
  show load_cache_rows (save_cache_rows st) = st.rows
  unfold load_cache_rows save_cache_rows
  have := load_cache_aux st.rows [] h.2 h.1 (fun p _ => rfl)
  simpa using this

theorem assocFind_merge_with_fallback (st : PriceTableState)
    (R : List (String × PriceRow)) (k : String) :
    assocFind (merge_with_fallback st R) k =
      match lastBind R k with
      | some w => some w
      | none =>
          match assocFind st.rows k with
          | some w => some w
          | none => assocFind builtin_fallback_rows k := by
  unfold merge_with_fallback
  rw [assocFind_setDefaults, assocFind_dictUpdate]
  cases lastBind R k <;> cases assocFind st.rows k <;> simp

theorem wfRows_merge_with_fallback {st : PriceTableState}
    {R : List (String × PriceRow)} (hst : wfRows st.rows)
    (hR : ∀ p ∈ R, p.2.model = p.1 ∧ p.1 ≠ "") :
    wfRows (merge_with_fallback st R) :=
  wfRows_setDefaults (wfRows_dictUpdate hst hR) wfRows_builtin.2

theorem rowsChanged_eq_false_iff (st : PriceTableState)
    (M : List (String × PriceRow)) :
    rowsChanged st M = false ↔
      keysSetEq st.rows M = true ∧ M.any (rowDiffers st) = false := by
  unfold rowsChanged
  cases h : keysSetEq st.rows M <;> simp [h]

/-- Claim C5 counterexample: a row keyed by the empty model name survives
`update_from_rows` in memory but is dropped by `load_cache` (pricing.py
line 68 skips rows with a falsy `model`), so after save→load the table's
rows do not include every row of the update map. -/
theorem price_table_empty_model_dropped :
    assocFind (update_from_rows ⟨builtin_fallback_rows, some 100, false, ""⟩
        [("", { model := "", input_per_1k := 1, output_per_1k := 2 })]
        true "URL" 200).rows "" =
      some { model := "", input_per_1k := 1, output_per_1k := 2 } ∧
    assocFind (save_load (update_from_rows
        ⟨builtin_fallback_rows, some 100, false, ""⟩
        [("", { model := "", input_per_1k := 1, output_per_1k := 2 })]
        true "URL" 200)).rows "" = none := by
  constructor
  · rfl
  · rfl

/-- Claim C5 (amended): for every non-empty, well-formed row map `R` (each
row keyed by its own non-empty model — `load_cache` re-keys by model and
drops empty models, so this is what round-trips), `update_from_rows`
followed by save→load yields a table whose rows bind every key of `R` to a
row `_rows_equal` to `R`'s (exactly `R`'s row whenever anything changed),
still contain the built-in baseline models `gpt-4o-mini` and `gpt-4o`, and
whose `last_updated` is unchanged when every row of `R` was already present
with equal values and the baseline was present. -/
theorem price_table_update_save_load (st : PriceTableState)
    (R : List (String × PriceRow)) (v : Bool) (src : String) (now : ℚ)
    (hst : wfRows st.rows) (hR : wfRows R) (hne : R ≠ []) :
    (∀ p ∈ R, ∃ r,
        assocFind (save_load (update_from_rows st R v src now)).rows p.1 =
          some r ∧ rows_equal r p.2 = true) ∧
    (assocFind (save_load (update_from_rows st R v src now)).rows
        "gpt-4o-mini").isSome = true ∧
    (assocFind (save_load (update_from_rows st R v src now)).rows
        "gpt-4o").isSome = true ∧
    (save_load (update_from_rows st R v src now)).last_updated =
      (update_from_rows st R v src now).last_updated ∧
    ((∀ p ∈ R, ∃ old, assocFind st.rows p.1 = some old ∧
        rows_equal old p.2 = true) →
     (∀ q ∈ builtin_fallback_rows, (assocFind st.rows q.1).isSome = true) →
     (update_from_rows st R v src now).last_updated = st.last_updated) := by
  have hMwf : wfRows (merge_with_fallback st R) :=
    wfRows_merge_with_fallback hst hR.2
  have hM2wf : wfRows (merge_with_fallback st st.rows) :=
    wfRows_merge_with_fallback hst hst.2
  have key1 : ∀ p ∈ R, assocFind (merge_with_fallback st R) p.1 = some p.2 := by
    intro p hp
    rw [assocFind_merge_with_fallback, lastBind_eq_assocFind_of_nodup hR.1,
      assocFind_eq_of_mem_nodup hR.1 (show (p.1, p.2) ∈ R from by simpa using hp)]
  have keyBase : ∀ (X : List (String × PriceRow)) (q : String × PriceRow),
      q ∈ builtin_fallback_rows →
      (assocFind (merge_with_fallback st X) q.1).isSome = true := by
    intro X q hq
    rw [assocFind_merge_with_fallback]
    have hb : (assocFind builtin_fallback_rows q.1).isSome = true :=
      assocFind_isSome_of_mem (show (q.1, q.2) ∈ builtin_fallback_rows from by
        simpa using hq)
    cases lastBind X q.1 <;> cases assocFind st.rows q.1 <;> simp_all
  by_cases hch : rowsChanged st (merge_with_fallback st R) = true
  · -- the update took the "changed" branch
    have hUdef : update_from_rows st R v src now =
        { rows := merge_with_fallback st R, last_updated := some now,
          verified := v, last_fetch_source := src } := by
      unfold update_from_rows
      rw [if_neg hne, if_pos hch]
    have hroundtrip : (save_load (update_from_rows st R v src now)).rows =
        merge_with_fallback st R := by
      rw [hUdef]
      exact save_load_rows_id hMwf
    refine ⟨?_, ?_, ?_, rfl, ?_⟩
    · intro p hp
      exact ⟨p.2, by rw [hroundtrip]; exact key1 p hp, rows_equal_refl p.2⟩
    · rw [hroundtrip]
      exact keyBase R ("gpt-4o-mini",
        { model := "gpt-4o-mini", input_per_1k := 15/100,
          output_per_1k := 60/100 }) (by simp [builtin_fallback_rows])
    · rw [hroundtrip]
      exact keyBase R ("gpt-4o",
        { model := "gpt-4o", input_per_1k := 5, output_per_1k := 15 })
        (by simp [builtin_fallback_rows])
    · -- unchanged-input hypothesis contradicts the "changed" branch
      intro hsub hbase
      exfalso
      have hcollapse : merge_with_fallback st R = dictUpdate st.rows R := by
        unfold merge_with_fallback
        apply setDefaults_eq_of_present
        intro q hq
        rw [assocFind_dictUpdate]
        have := hbase q hq
        cases lastBind R q.1 <;> simp_all
      have hfalse : rowsChanged st (merge_with_fallback st R) = false := by
        rw [rowsChanged_eq_false_iff]
        constructor
        · -- key sets agree
          unfold keysSetEq
          rw [Bool.and_eq_true, List.all_eq_true, List.all_eq_true]
          constructor
          · intro p hp
            rw [assocFind_merge_with_fallback]
            have hsome : (assocFind st.rows p.1).isSome = true :=
              assocFind_isSome_of_mem
                (show (p.1, p.2) ∈ st.rows from by simpa using hp)
            cases lastBind R p.1 <;> cases hx : assocFind st.rows p.1 <;>
              simp_all
          · intro p hp
            have hfind : assocFind (merge_with_fallback st R) p.1 = some p.2 :=
              assocFind_eq_of_mem_nodup hMwf.1 (by simpa using hp)
            rw [assocFind_merge_with_fallback] at hfind
            cases hlb : lastBind R p.1 with
            | some w =>
                obtain ⟨old, hold, _⟩ := hsub (p.1, w) (lastBind_mem hlb)
                simp [hold]
            | none =>
                rw [hlb] at hfind
                cases hsr : assocFind st.rows p.1 with
                | some old => simp
                | none =>
                    rw [hsr] at hfind
                    have := hbase (p.1, p.2) (mem_of_assocFind hfind)
                    simp [hsr] at this
        · -- no merged row differs from its stored value
          rw [List.any_eq_false]
          intro p hp
          have hfind : assocFind (merge_with_fallback st R) p.1 = some p.2 :=
            assocFind_eq_of_mem_nodup hMwf.1 (by simpa using hp)
          rw [assocFind_merge_with_fallback] at hfind
          cases hlb : lastBind R p.1 with
          | some w =>
              rw [hlb] at hfind
              have hw : w = p.2 := by simpa using hfind
              obtain ⟨old, hold, heq⟩ := hsub (p.1, w) (lastBind_mem hlb)
              simp [rowDiffers, hold, hw ▸ heq]
          | none =>
              rw [hlb] at hfind
              cases hsr : assocFind st.rows p.1 with
              | some old =>
                  rw [hsr] at hfind
                  have hold : old = p.2 := by simpa using hfind
                  simp [rowDiffers, hsr, hold, rows_equal_refl]
              | none =>
                  rw [hsr] at hfind
                  have := hbase (p.1, p.2) (mem_of_assocFind hfind)
                  simp [hsr] at this
      rw [hch] at hfalse
      exact Bool.noConfusion hfalse
  · -- the update took the "unchanged" branch
    have hchf : rowsChanged st (merge_with_fallback st R) = false := by
      cases hx : rowsChanged st (merge_with_fallback st R)
      · rfl
      · exact absurd hx hch
    have hUdef : update_from_rows st R v src now =
        { rows := merge_with_fallback st st.rows,
          last_updated := st.last_updated,
          verified := v, last_fetch_source := src } := by
      unfold update_from_rows
      rw [if_neg hne, hchf]
      simp
    have hroundtrip : (save_load (update_from_rows st R v src now)).rows =
        merge_with_fallback st st.rows := by
      rw [hUdef]
      exact save_load_rows_id hM2wf
    obtain ⟨hks, hany⟩ := (rowsChanged_eq_false_iff _ _).mp hchf
    refine ⟨?_, ?_, ?_, rfl, ?_⟩
    · intro p hp
      have hmem : (p.1, p.2) ∈ merge_with_fallback st R :=
        mem_of_assocFind (key1 p hp)
      have hdz := (List.any_eq_false.mp hany) (p.1, p.2) hmem
      rw [rowDiffers] at hdz
      cases hsr : assocFind st.rows p.1 with
      | none => rw [hsr] at hdz; simp at hdz
      | some old =>
          rw [hsr] at hdz
          simp at hdz
          refine ⟨old, ?_, hdz⟩
          rw [hroundtrip, assocFind_merge_with_fallback,
            lastBind_eq_assocFind_of_nodup hst.1, hsr]
    · rw [hroundtrip]
      exact keyBase st.rows ("gpt-4o-mini",
        { model := "gpt-4o-mini", input_per_1k := 15/100,
          output_per_1k := 60/100 }) (by simp [builtin_fallback_rows])
    · rw [hroundtrip]
      exact keyBase st.rows ("gpt-4o",
        { model := "gpt-4o", input_per_1k := 5, output_per_1k := 15 })
        (by simp [builtin_fallback_rows])
    · intro _ _
      rw [hUdef]

/-- Claim C5 witness: updating a baseline table with the `gpt-4o` row it
already holds keeps that row (up to `_rows_equal`) across save→load, keeps
the baseline models, and leaves `last_updated` at its prior value. -/
theorem price_table_update_save_load_witness :
    (∃ r, assocFind (save_load (update_from_rows
        ⟨builtin_fallback_rows, some 100, false, ""⟩
        [("gpt-4o",
          { model := "gpt-4o", input_per_1k := 5, output_per_1k := 15 })] false "URL" 200)).rows "gpt-4o" =
        some r ∧
        rows_equal r
          { model := "gpt-4o", input_per_1k := 5, output_per_1k := 15 } =
          true) ∧
    (assocFind (save_load (update_from_rows
        ⟨builtin_fallback_rows, some 100, false, ""⟩
        [("gpt-4o",
          { model := "gpt-4o", input_per_1k := 5, output_per_1k := 15 })] false "URL" 200)).rows
        "gpt-4o-mini").isSome = true ∧
    (update_from_rows ⟨builtin_fallback_rows, some 100, false, ""⟩
        [("gpt-4o",
          { model := "gpt-4o", input_per_1k := 5, output_per_1k := 15 })] false "URL" 200).last_updated =
      some 100 := by
  have T := price_table_update_save_load
    ⟨builtin_fallback_rows, some 100, false, ""⟩
    [("gpt-4o",
      { model := "gpt-4o", input_per_1k := 5, output_per_1k := 15 })]
    false "URL" 200
    wfRows_builtin
    (by constructor
        · decide
        · decide)
    (by simp)
  refine ⟨?_, T.2.1, ?_⟩
  · exact T.1 ("gpt-4o",
      { model := "gpt-4o", input_per_1k := 5, output_per_1k := 15 })
      (List.mem_singleton.mpr rfl)
  · have h := T.2.2.2.2 ?_ ?_
    · exact h
    · intro p hp
      rw [List.mem_singleton] at hp
      subst hp
      exact ⟨{ model := "gpt-4o", input_per_1k := 5, output_per_1k := 15 },
        rfl, by decide⟩
    · decide

/-- Claim C3 counterexample: a response file whose JSON carries no id at all
(no `response_id`, no `batch_id`) bypasses both dedup keys in
`_insert_or_update` and is inserted unconditionally, so a second `audit()`
over the unchanged tree inserts an additional row — contradicting the
claimed zero additional rows "including for response files whose JSON
carries no id at all". -/
theorem audit_reinserts_idless_responses :
    (audit ⟨[], 1⟩ [⟨"RUN_A", [⟨none, none, 5⟩]⟩]).rows.length = 1 ∧
    (audit (audit ⟨[], 1⟩ [⟨"RUN_A", [⟨none, none, 5⟩]⟩])
        [⟨"RUN_A", [⟨none, none, 5⟩]⟩]).rows.length = 2 := by
  exact ⟨rfl, rfl⟩

/- Counting helpers for the receipts table. -/

theorem filterLength_map_congr {β : Type} (rows : List β) (f : β → β)
    (p : β → Bool) (h : ∀ x ∈ rows, p (f x) = p x) :
    ((rows.map f).filter p).length = (rows.filter p).length := by
  induction rows with
  | nil => rfl
  | cons hd tl ih =>
      simp only [List.map_cons, List.filter_cons]
      rw [h hd (List.mem_cons_self _ _)]
      cases hp : p hd <;>
        simp [hp, ih (fun x hx => h x (List.mem_cons_of_mem _ hx))]

theorem countResp_append (rows : List DBRow) (row : DBRow) (r : String) :
    countResp (rows ++ [row]) r =
      countResp rows r + (if row.response_id == some r then 1 else 0) := by
  unfold countResp
  rw [List.filter_append]
  cases h : row.response_id == some r <;> simp [h]

theorem countBatch_append (rows : List DBRow) (row : DBRow) (b : String) :
    countBatch (rows ++ [row]) b =
      countBatch rows b + (if row.batch_id == some b then 1 else 0) := by
  unfold countBatch
  rw [List.filter_append]
  cases h : row.batch_id == some b <;> simp [h]

theorem counts_update_row (db : AuditDB) (i : Nat) (rc : AuditReceipt)
    (hrow : ∀ row ∈ db.rows, row.id = i →
      row.response_id = rc.response_id ∧ row.batch_id = rc.batch_id) :
    (∀ r, countResp (db_update_row db i rc).rows r = countResp db.rows r) ∧
    (∀ b, countBatch (db_update_row db i rc).rows b = countBatch db.rows b) := by
  constructor
  · intro r
    unfold countResp db_update_row
    apply filterLength_map_congr
    intro row hm
    by_cases hid : row.id = i
    · simp [hid, (hrow row hm hid).1]
    · simp [hid]
  · intro b
    unfold countBatch db_update_row
    apply filterLength_map_congr
    intro row hm
    by_cases hid : row.id = i
    · simp [hid, (hrow row hm hid).2]
    · simp [hid]

theorem map_id_update_row (db : AuditDB) (i : Nat) (rc : AuditReceipt) :
    (db_update_row db i rc).rows.map DBRow.id = db.rows.map DBRow.id := by
  unfold db_update_row
  simp only [List.map_map]
  apply List.map_congr_left
  intro row _
  by_cases h : row.id = i <;> simp [h]

theorem mem_update_row_self (db : AuditDB) (i : Nat) (rc : AuditReceipt)
    (hex : ∃ row ∈ db.rows, row.id = i) :
    (⟨i, rc.run_id, rc.response_id, rc.batch_id, rc.total_cost⟩ : DBRow) ∈
      (db_update_row db i rc).rows := by
  obtain ⟨row, hm, hid⟩ := hex
  unfold db_update_row
  exact List.mem_map.mpr ⟨row, hm, by simp [hid]⟩

theorem mem_update_row_other (db : AuditDB) (i : Nat) (rc : AuditReceipt)
    {row : DBRow} (hm : row ∈ db.rows) (hne : row.id ≠ i) :
    row ∈ (db_update_row db i rc).rows := by
  unfold db_update_row
  exact List.mem_map.mpr ⟨row, hm, by simp [hne]⟩

theorem eq_of_mem_nodup_id {rows : List DBRow}
    (hnd : (rows.map DBRow.id).Nodup) {a b : DBRow}
    (ha : a ∈ rows) (hb : b ∈ rows) (hid : a.id = b.id) : a = b := by
  induction rows with
  | nil => cases ha
  | cons hd tl ih =>
      simp only [List.map_cons, List.nodup_cons] at hnd
      rcases List.mem_cons.mp ha with ha1 | ha2 <;>
        rcases List.mem_cons.mp hb with hb1 | hb2
      · rw [ha1, hb1]
      · subst ha1
        exfalso
        apply hnd.1
        rw [hid]
        exact List.mem_map.mpr ⟨b, hb2, rfl⟩
      · subst hb1
        exfalso
        apply hnd.1
        rw [← hid]
        exact List.mem_map.mpr ⟨a, ha2, rfl⟩
      · exact ih hnd.2 ha2 hb2

/- Branch equations for `_insert_or_update`. -/

theorem iou_eq_update_resp (db : AuditDB) (idx : AuditIdx) (rc : AuditReceipt)
    (r : String) (info : RowRef)
    (ha : rc.response_id = some r) (hr : (r == "") = false)
    (hfound : assocFind idx.resp r = some info)
    (hup : needs_update info.total_cost rc.total_cost = true) :
    insert_or_update db idx rc =
      (db_update_row db info.id rc,
       { idx with
          resp := assocSet idx.resp r ⟨info.id, info.run_id, rc.total_cost⟩ },
       "updated") := by
  simp [insert_or_update, ha, hr, hfound, hup]

theorem iou_eq_skip_resp (db : AuditDB) (idx : AuditIdx) (rc : AuditReceipt)
    (r : String) (info : RowRef)
    (ha : rc.response_id = some r) (hr : (r == "") = false)
    (hfound : assocFind idx.resp r = some info)
    (hup : needs_update info.total_cost rc.total_cost = false) :
    insert_or_update db idx rc = (db, idx, "skipped") := by
  simp [insert_or_update, ha, hr, hfound, hup]

theorem iou_eq_insert_resp (db : AuditDB) (idx : AuditIdx) (rc : AuditReceipt)
    (r : String)
    (ha : rc.response_id = some r) (hr : (r == "") = false)
    (hfound : assocFind idx.resp r = none) (hb : rc.batch_id = none) :
    insert_or_update db idx rc =
      ({ rows := db.rows ++
          [⟨db.next_id, rc.run_id, rc.response_id, rc.batch_id,
            rc.total_cost⟩],
         next_id := db.next_id + 1 },
       { resp := assocSet idx.resp r ⟨db.next_id, rc.run_id, rc.total_cost⟩,
         batch := idx.batch,
         run_ids := listAddUnique idx.run_ids rc.run_id },
       "inserted") := by
  simp [insert_or_update, ha, hr, hfound, hb, db_insert]

theorem iou_eq_update_batch (db : AuditDB) (idx : AuditIdx) (rc : AuditReceipt)
    (b : String) (info : RowRef)
    (ha : rc.response_id = none)
    (hb : rc.batch_id = some b) (hbr : (b == "") = false)
    (hfound : assocFind idx.batch b = some info)
    (hup : needs_update info.total_cost rc.total_cost = true) :
    insert_or_update db idx rc =
      (db_update_row db info.id rc,
       { idx with
          batch := assocSet idx.batch b ⟨info.id, info.run_id, rc.total_cost⟩ },
       "updated") := by
  simp [insert_or_update, ha, hb, hbr, hfound, hup]

theorem iou_eq_skip_batch (db : AuditDB) (idx : AuditIdx) (rc : AuditReceipt)
    (b : String) (info : RowRef)
    (ha : rc.response_id = none)
    (hb : rc.batch_id = some b) (hbr : (b == "") = false)
    (hfound : assocFind idx.batch b = some info)
    (hup : needs_update info.total_cost rc.total_cost = false) :
    insert_or_update db idx rc = (db, idx, "skipped") := by
  simp [insert_or_update, ha, hb, hbr, hfound, hup]

theorem iou_eq_insert_batch (db : AuditDB) (idx : AuditIdx) (rc : AuditReceipt)
    (b : String)
    (ha : rc.response_id = none)
    (hb : rc.batch_id = some b) (hbr : (b == "") = false)
    (hfound : assocFind idx.batch b = none) :
    insert_or_update db idx rc =
      ({ rows := db.rows ++
          [⟨db.next_id, rc.run_id, rc.response_id, rc.batch_id,
            rc.total_cost⟩],
         next_id := db.next_id + 1 },
       { resp := idx.resp,
         batch := assocSet idx.batch b ⟨db.next_id, rc.run_id, rc.total_cost⟩,
         run_ids := listAddUnique idx.run_ids rc.run_id },
       "inserted") := by
  simp [insert_or_update, ha, hb, hbr, hfound, db_insert]

theorem assocSet_isSome_mono {α : Type} {l : List (String × α)} {k r : String}
    {v : α} (h : (assocFind l r).isSome = true) :
    (assocFind (assocSet l k v) r).isSome = true := by
  rw [assocFind_assocSet]
  by_cases hk : k = r <;> simp [hk, h]

theorem assocSet_isSome_self {α : Type} (l : List (String × α)) (k : String)
    (v : α) : (assocFind (assocSet l k v) k).isSome = true := by
  rw [assocFind_assocSet]
  simp

theorem insert_or_update_spec (db : AuditDB) (idx : AuditIdx)
    (rc : AuditReceipt) (hinv : AuditInv db idx)
    (hone : (truthy rc.response_id = true ∧ rc.batch_id = none) ∨
            (rc.response_id = none ∧ truthy rc.batch_id = true)) :
    AuditInv (insert_or_update db idx rc).1 (insert_or_update db idx rc).2.1 ∧
    (∀ r, (assocFind idx.resp r).isSome = true →
        (assocFind (insert_or_update db idx rc).2.1.resp r).isSome = true) ∧
    (∀ b, (assocFind idx.batch b).isSome = true →
        (assocFind (insert_or_update db idx rc).2.1.batch b).isSome = true) ∧
    (∀ r, rc.response_id = some r →
        (assocFind (insert_or_update db idx rc).2.1.resp r).isSome = true) ∧
    (∀ b, rc.batch_id = some b →
        (assocFind (insert_or_update db idx rc).2.1.batch b).isSome = true) := by
  obtain ⟨hnd, hbound, hcr, hcb, hpr, hpb⟩ := hinv
  rcases hone with ⟨htr, hbn⟩ | ⟨hrn, htb⟩
  · -- pipeline-style receipt: truthy response id, no batch id
    cases hrc : rc.response_id with
    | none =>
        rw [hrc] at htr
        simp [truthy] at htr
    | some r =>
        rw [hrc] at htr
        have hr : (r == "") = false := by simpa [truthy] using htr
        cases hfound : assocFind idx.resp r with
        | some info =>
            obtain ⟨row0, hrow0m, hrow0id, hrow0resp, hrow0batch⟩ :=
              hpr r info hfound
            have huniq : ∀ row ∈ db.rows, row.id = info.id → row = row0 := by
              intro row hm hid
              exact eq_of_mem_nodup_id hnd hm hrow0m (by rw [hid, hrow0id])
            by_cases hup : needs_update info.total_cost rc.total_cost = true
            · rw [iou_eq_update_resp db idx rc r info hrc hr hfound hup]
              have hrow_match : ∀ row ∈ db.rows, row.id = info.id →
                  row.response_id = rc.response_id ∧
                  row.batch_id = rc.batch_id := by
                intro row hm hid
                constructor
                · rw [huniq row hm hid, hrow0resp, hrc]
                · rw [huniq row hm hid, hrow0batch, hbn]
              have hcounts := counts_update_row db info.id rc hrow_match
              have hpres_eq : ∀ r',
                  (assocFind (assocSet idx.resp r
                    ⟨info.id, info.run_id, rc.total_cost⟩) r').isSome =
                  (assocFind idx.resp r').isSome := by
                intro r'
                rw [assocFind_assocSet]
                by_cases hk : r = r'
                · subst hk
                  simp [hfound]
                · simp [hk]
              refine ⟨⟨?_, ?_, ?_, ?_, ?_, ?_⟩, ?_, ?_, ?_, ?_⟩
              · show ((db_update_row db info.id rc).rows.map DBRow.id).Nodup
                rw [map_id_update_row]
                exact hnd
              · intro row hm
                simp only [db_update_row] at hm
                obtain ⟨orig, ho, he⟩ := List.mem_map.mp hm
                show row.id < db.next_id
                by_cases hid : orig.id = info.id
                · have hri : row.id = info.id := by
                    rw [← he]
                    simp [hid]
                  rw [hri, ← hrow0id]
                  exact hbound row0 hrow0m
                · have hri : row.id = orig.id := by
                    rw [← he]
                    simp [hid]
                  rw [hri]
                  exact hbound orig ho
              · intro r'
                show countResp (db_update_row db info.id rc).rows r' = _
                rw [hcounts.1 r']
                show countResp db.rows r' =
                  if (assocFind (assocSet idx.resp r
                    ⟨info.id, info.run_id, rc.total_cost⟩) r').isSome = true
                  then 1 else 0
                rw [hpres_eq r']
                exact hcr r'
              · intro b
                show countBatch (db_update_row db info.id rc).rows b = _
                rw [hcounts.2 b]
                exact hcb b
              · intro r' info' hfind'
                show ∃ row ∈ (db_update_row db info.id rc).rows, _
                rw [assocFind_assocSet] at hfind'
                by_cases hk : r = r'
                · subst hk
                  simp at hfind'
                  refine ⟨⟨info.id, rc.run_id, rc.response_id, rc.batch_id,
                    rc.total_cost⟩,
                    mem_update_row_self db info.id rc ⟨row0, hrow0m, hrow0id⟩,
                    ?_, ?_, ?_⟩
                  · rw [← hfind']
                  · exact hrc
                  · exact hbn
                · have hkb : (r == r') = false := by simp [hk]
                  rw [hkb] at hfind'
                  simp at hfind'
                  obtain ⟨row', hm', hid', hresp', hbatch'⟩ :=
                    hpr r' info' hfind'
                  have hne : row'.id ≠ info.id := by
                    intro he
                    have := huniq row' hm' he
                    rw [this, hrow0resp] at hresp'
                    simp at hresp'
                    exact hk hresp'
                  exact ⟨row', mem_update_row_other db info.id rc hm' hne,
                    hid', hresp', hbatch'⟩
              · intro b info' hfind'
                show ∃ row ∈ (db_update_row db info.id rc).rows, _
                obtain ⟨rowb, hmb, hidb, hbatchb, hrespb⟩ := hpb b info' hfind'
                have hne : rowb.id ≠ info.id := by
                  intro he
                  have := huniq rowb hmb he
                  rw [this, hrow0resp] at hrespb
                  simp at hrespb
                exact ⟨rowb, mem_update_row_other db info.id rc hmb hne,
                  hidb, hbatchb, hrespb⟩
              · intro r' h'
                exact assocSet_isSome_mono h'
              · intro b h'
                exact h'
              · intro r' hr'
                have hr2 : r = r' := Option.some.inj hr'
                subst hr2
                exact assocSet_isSome_self idx.resp _ _
              · intro b hb'
                simp [hbn] at hb'
            · have hup' : needs_update info.total_cost rc.total_cost = false := by
                cases h : needs_update info.total_cost rc.total_cost
                · rfl
                · exact absurd h hup
              rw [iou_eq_skip_resp db idx rc r info hrc hr hfound hup']
              refine ⟨⟨hnd, hbound, hcr, hcb, hpr, hpb⟩,
                fun _ h => h, fun _ h => h, ?_, ?_⟩
              · intro r' hr'
                have hr2 : r = r' := Option.some.inj hr'
                subst hr2
                rw [hfound]
                rfl
              · intro b hb'
                simp [hbn] at hb'
        | none =>
            rw [iou_eq_insert_resp db idx rc r hrc hr hfound hbn]
            have hnewid : db.next_id ∉ db.rows.map DBRow.id := by
              intro hmem
              obtain ⟨row, hm, he⟩ := List.mem_map.mp hmem
              exact absurd (he ▸ hbound row hm) (lt_irrefl _)
            refine ⟨⟨?_, ?_, ?_, ?_, ?_, ?_⟩, ?_, ?_, ?_, ?_⟩
            · show ((db.rows ++ [_]).map DBRow.id).Nodup
              rw [List.map_append]
              simp [List.nodup_append, hnd, hnewid]
            · intro row hm
              show row.id < db.next_id + 1
              rcases List.mem_append.mp hm with h1 | h2
              · exact Nat.lt_succ_of_lt (hbound row h1)
              · simp at h2
                rw [h2]
                exact Nat.lt_succ_self _
            · intro r'
              show countResp (db.rows ++ [_]) r' = _
              rw [countResp_append]
              by_cases hk : r = r'
              · subst hk
                rw [hcr r, hfound]
                simp [hrc, assocSet_isSome_self]
              · have hkb : (r == r') = false := by simp [hk]
                rw [hcr r']
                have hnotadd : ((⟨db.next_id, rc.run_id, rc.response_id,
                    rc.batch_id, rc.total_cost⟩ : DBRow).response_id ==
                    some r') = false := by
                  simp [hrc, hk]
                rw [hnotadd]
                rw [assocFind_assocSet]
                simp [hkb]
            · intro b
              show countBatch (db.rows ++ [_]) b = _
              rw [countBatch_append]
              have hnotadd : ((⟨db.next_id, rc.run_id, rc.response_id,
                  rc.batch_id, rc.total_cost⟩ : DBRow).batch_id ==
                  some b) = false := by
                simp [hbn]
              rw [hnotadd]
              simpa using hcb b
            · intro r' info' hfind'
              show ∃ row ∈ db.rows ++ [_], _
              rw [assocFind_assocSet] at hfind'
              by_cases hk : r = r'
              · subst hk
                simp at hfind'
                refine ⟨⟨db.next_id, rc.run_id, rc.response_id, rc.batch_id,
                  rc.total_cost⟩, by simp, ?_, hrc, hbn⟩
                rw [← hfind']
              · have hkb : (r == r') = false := by simp [hk]
                rw [hkb] at hfind'
                simp at hfind'
                obtain ⟨row', hm', hid', hresp', hbatch'⟩ :=
                  hpr r' info' hfind'
                exact ⟨row', List.mem_append_left _ hm', hid', hresp',
                  hbatch'⟩
            · intro b info' hfind'
              show ∃ row ∈ db.rows ++ [_], _
              obtain ⟨rowb, hmb, hidb, hbatchb, hrespb⟩ := hpb b info' hfind'
              exact ⟨rowb, List.mem_append_left _ hmb, hidb, hbatchb, hrespb⟩
            · intro r' h'
              exact assocSet_isSome_mono h'
            · intro b h'
              exact h'
            · intro r' hr'
              have hr2 : r = r' := Option.some.inj hr'
              subst hr2
              exact assocSet_isSome_self idx.resp _ _
            · intro b hb'
              simp [hbn] at hb'
  · -- batch-style receipt: no response id, truthy batch id
    cases hbc : rc.batch_id with
    | none =>
        rw [hbc] at htb
        simp [truthy] at htb
    | some b =>
        rw [hbc] at htb
        have hb : (b == "") = false := by simpa [truthy] using htb
        cases hfound : assocFind idx.batch b with
        | some info =>
            obtain ⟨row0, hrow0m, hrow0id, hrow0batch, hrow0resp⟩ :=
              hpb b info hfound
            have huniq : ∀ row ∈ db.rows, row.id = info.id → row = row0 := by
              intro row hm hid
              exact eq_of_mem_nodup_id hnd hm hrow0m (by rw [hid, hrow0id])
            by_cases hup : needs_update info.total_cost rc.total_cost = true
            · rw [iou_eq_update_batch db idx rc b info hrn hbc hb hfound hup]
              have hrow_match : ∀ row ∈ db.rows, row.id = info.id →
                  row.response_id = rc.response_id ∧
                  row.batch_id = rc.batch_id := by
                intro row hm hid
                constructor
                · rw [huniq row hm hid, hrow0resp, hrn]
                · rw [huniq row hm hid, hrow0batch, hbc]
              have hcounts := counts_update_row db info.id rc hrow_match
              have hpres_eq : ∀ b',
                  (assocFind (assocSet idx.batch b
                    ⟨info.id, info.run_id, rc.total_cost⟩) b').isSome =
                  (assocFind idx.batch b').isSome := by
                intro b'
                rw [assocFind_assocSet]
                by_cases hk : b = b'
                · subst hk
                  simp [hfound]
                · simp [hk]
              refine ⟨⟨?_, ?_, ?_, ?_, ?_, ?_⟩, ?_, ?_, ?_, ?_⟩
              · show ((db_update_row db info.id rc).rows.map DBRow.id).Nodup
                rw [map_id_update_row]
                exact hnd
              · intro row hm
                simp only [db_update_row] at hm
                obtain ⟨orig, ho, he⟩ := List.mem_map.mp hm
                show row.id < db.next_id
                by_cases hid : orig.id = info.id
                · have hri : row.id = info.id := by
                    rw [← he]
                    simp [hid]
                  rw [hri, ← hrow0id]
                  exact hbound row0 hrow0m
                · have hri : row.id = orig.id := by
                    rw [← he]
                    simp [hid]
                  rw [hri]
                  exact hbound orig ho
              · intro r'
                show countResp (db_update_row db info.id rc).rows r' = _
                rw [hcounts.1 r']
                exact hcr r'
              · intro b'
                show countBatch (db_update_row db info.id rc).rows b' = _
                rw [hcounts.2 b']
                show countBatch db.rows b' =
                  if (assocFind (assocSet idx.batch b
                    ⟨info.id, info.run_id, rc.total_cost⟩) b').isSome = true
                  then 1 else 0
                rw [hpres_eq b']
                exact hcb b'
              · intro r' info' hfind'
                show ∃ row ∈ (db_update_row db info.id rc).rows, _
                obtain ⟨row', hm', hid', hresp', hbatch'⟩ :=
                  hpr r' info' hfind'
                have hne : row'.id ≠ info.id := by
                  intro he
                  have := huniq row' hm' he
                  rw [this, hrow0resp] at hresp'
                  simp at hresp'
                exact ⟨row', mem_update_row_other db info.id rc hm' hne,
                  hid', hresp', hbatch'⟩
              · intro b' info' hfind'
                show ∃ row ∈ (db_update_row db info.id rc).rows, _
                rw [assocFind_assocSet] at hfind'
                by_cases hk : b = b'
                · subst hk
                  simp at hfind'
                  refine ⟨⟨info.id, rc.run_id, rc.response_id, rc.batch_id,
                    rc.total_cost⟩,
                    mem_update_row_self db info.id rc ⟨row0, hrow0m, hrow0id⟩,
                    ?_, ?_, ?_⟩
                  · rw [← hfind']
                  · exact hbc
                  · exact hrn
                · have hkb : (b == b') = false := by simp [hk]
                  rw [hkb] at hfind'
                  simp at hfind'
                  obtain ⟨rowb, hmb, hidb, hbatchb, hrespb⟩ :=
                    hpb b' info' hfind'
                  have hne : rowb.id ≠ info.id := by
                    intro he
                    have := huniq rowb hmb he
                    rw [this, hrow0batch] at hbatchb
                    simp at hbatchb
                    exact hk hbatchb
                  exact ⟨rowb, mem_update_row_other db info.id rc hmb hne,
                    hidb, hbatchb, hrespb⟩
              · intro r' h'
                exact h'
              · intro b' h'
                exact assocSet_isSome_mono h'
              · intro r' hr'
                simp [hrn] at hr'
              · intro b' hb'
                have hb2 : b = b' := Option.some.inj hb'
                subst hb2
                exact assocSet_isSome_self idx.batch _ _
            · have hup' : needs_update info.total_cost rc.total_cost = false := by
                cases h : needs_update info.total_cost rc.total_cost
                · rfl
                · exact absurd h hup
              rw [iou_eq_skip_batch db idx rc b info hrn hbc hb hfound hup']
              refine ⟨⟨hnd, hbound, hcr, hcb, hpr, hpb⟩,
                fun _ h => h, fun _ h => h, ?_, ?_⟩
              · intro r' hr'
                simp [hrn] at hr'
              · intro b' hb'
                have hb2 : b = b' := Option.some.inj hb'
                subst hb2
                rw [hfound]
                rfl
        | none =>
            rw [iou_eq_insert_batch db idx rc b hrn hbc hb hfound]
            have hnewid : db.next_id ∉ db.rows.map DBRow.id := by
              intro hmem
              obtain ⟨row, hm, he⟩ := List.mem_map.mp hmem
              exact absurd (he ▸ hbound row hm) (lt_irrefl _)
            refine ⟨⟨?_, ?_, ?_, ?_, ?_, ?_⟩, ?_, ?_, ?_, ?_⟩
            · show ((db.rows ++ [_]).map DBRow.id).Nodup
              rw [List.map_append]
              simp [List.nodup_append, hnd, hnewid]
            · intro row hm
              show row.id < db.next_id + 1
              rcases List.mem_append.mp hm with h1 | h2
              · exact Nat.lt_succ_of_lt (hbound row h1)
              · simp at h2
                rw [h2]
                exact Nat.lt_succ_self _
            · intro r'
              show countResp (db.rows ++ [_]) r' = _
              rw [countResp_append]
              have hnotadd : ((⟨db.next_id, rc.run_id, rc.response_id,
                  rc.batch_id, rc.total_cost⟩ : DBRow).response_id ==
                  some r') = false := by
                simp [hrn]
              rw [hnotadd]
              simpa using hcr r'
            · intro b'
              show countBatch (db.rows ++ [_]) b' = _
              rw [countBatch_append]
              by_cases hk : b = b'
              · subst hk
                rw [hcb b, hfound]
                simp [hbc, assocSet_isSome_self]
              · have hkb : (b == b') = false := by simp [hk]
                rw [hcb b']
                have hnotadd : ((⟨db.next_id, rc.run_id, rc.response_id,
                    rc.batch_id, rc.total_cost⟩ : DBRow).batch_id ==
                    some b') = false := by
                  simp [hbc, hk]
                rw [hnotadd]
                rw [assocFind_assocSet]
                simp [hkb]
            · intro r' info' hfind'
              show ∃ row ∈ db.rows ++ [_], _
              obtain ⟨row', hm', hid', hresp', hbatch'⟩ := hpr r' info' hfind'
              exact ⟨row', List.mem_append_left _ hm', hid', hresp', hbatch'⟩
            · intro b' info' hfind'
              show ∃ row ∈ db.rows ++ [_], _
              rw [assocFind_assocSet] at hfind'
              by_cases hk : b = b'
              · subst hk
                simp at hfind'
                refine ⟨⟨db.next_id, rc.run_id, rc.response_id, rc.batch_id,
                  rc.total_cost⟩, by simp, ?_, hbc, hrn⟩
                rw [← hfind']
              · have hkb : (b == b') = false := by simp [hk]
                rw [hkb] at hfind'
                simp at hfind'
                obtain ⟨rowb, hmb, hidb, hbatchb, hrespb⟩ :=
                  hpb b' info' hfind'
                exact ⟨rowb, List.mem_append_left _ hmb, hidb, hbatchb,
                  hrespb⟩
            · intro r' h'
              exact h'
            · intro b' h'
              exact assocSet_isSome_mono h'
            · intro r' hr'
              simp [hrn] at hr'
            · intro b' hb'
              have hb2 : b = b' := Option.some.inj hb'
              subst hb2
              exact assocSet_isSome_self idx.batch _ _

theorem insert_or_update_pass2 (db : AuditDB) (idx : AuditIdx)
    (rc : AuditReceipt)
    (hone : (truthy rc.response_id = true ∧ rc.batch_id = none) ∨
            (rc.response_id = none ∧ truthy rc.batch_id = true))
    (hpres : (∀ r, rc.response_id = some r →
        (assocFind idx.resp r).isSome = true) ∧
      (∀ b, rc.batch_id = some b → (assocFind idx.batch b).isSome = true)) :
    (insert_or_update db idx rc).1.rows.length = db.rows.length ∧
    (∀ r, (assocFind idx.resp r).isSome = true →
        (assocFind (insert_or_update db idx rc).2.1.resp r).isSome = true) ∧
    (∀ b, (assocFind idx.batch b).isSome = true →
        (assocFind (insert_or_update db idx rc).2.1.batch b).isSome = true) := by
  rcases hone with ⟨htr, hbn⟩ | ⟨hrn, htb⟩
  · cases hrc : rc.response_id with
    | none =>
        rw [hrc] at htr
        simp [truthy] at htr
    | some r =>
        have hsome : (assocFind idx.resp r).isSome = true := hpres.1 r hrc
        rw [hrc] at htr
        have hr : (r == "") = false := by simpa [truthy] using htr
        cases hfound : assocFind idx.resp r with
        | none =>
            rw [hfound] at hsome
            simp at hsome
        | some info =>
            by_cases hup : needs_update info.total_cost rc.total_cost = true
            · rw [iou_eq_update_resp db idx rc r info hrc hr hfound hup]
              refine ⟨?_, ?_, ?_⟩
              · show (db_update_row db info.id rc).rows.length = db.rows.length
                unfold db_update_row
                simp
              · intro r' h'
                exact assocSet_isSome_mono h'
              · intro b h'
                exact h'
            · have hup' : needs_update info.total_cost rc.total_cost = false := by
                cases h : needs_update info.total_cost rc.total_cost
                · rfl
                · exact absurd h hup
              rw [iou_eq_skip_resp db idx rc r info hrc hr hfound hup']
              exact ⟨rfl, fun _ h => h, fun _ h => h⟩
  · cases hbc : rc.batch_id with
    | none =>
        rw [hbc] at htb
        simp [truthy] at htb
    | some b =>
        have hsome : (assocFind idx.batch b).isSome = true := hpres.2 b hbc
        rw [hbc] at htb
        have hb : (b == "") = false := by simpa [truthy] using htb
        cases hfound : assocFind idx.batch b with
        | none =>
            rw [hfound] at hsome
            simp at hsome
        | some info =>
            by_cases hup : needs_update info.total_cost rc.total_cost = true
            · rw [iou_eq_update_batch db idx rc b info hrn hbc hb hfound hup]
              refine ⟨?_, ?_, ?_⟩
              · show (db_update_row db info.id rc).rows.length = db.rows.length
                unfold db_update_row
                simp
              · intro r' h'
                exact h'
              · intro b' h'
                exact assocSet_isSome_mono h'
            · have hup' : needs_update info.total_cost rc.total_cost = false := by
                cases h : needs_update info.total_cost rc.total_cost
                · rfl
                · exact absurd h hup
              rw [iou_eq_skip_batch db idx rc b info hrn hbc hb hfound hup']
              exact ⟨rfl, fun _ h => h, fun _ h => h⟩

theorem audit_entries_spec (run_id : String) (entries : List RespEntry) :
    ∀ (db : AuditDB) (idx : AuditIdx), AuditInv db idx →
    (∀ e ∈ entries, entryOneId e) →
    AuditInv (entries.foldl (auditStep run_id) (db, idx)).1
      (entries.foldl (auditStep run_id) (db, idx)).2 ∧
    (∀ r, (assocFind idx.resp r).isSome = true →
        (assocFind (entries.foldl (auditStep run_id) (db, idx)).2.resp
          r).isSome = true) ∧
    (∀ b, (assocFind idx.batch b).isSome = true →
        (assocFind (entries.foldl (auditStep run_id) (db, idx)).2.batch
          b).isSome = true) ∧
    (∀ e ∈ entries,
      (∀ r, e.response_id = some r →
        (assocFind (entries.foldl (auditStep run_id) (db, idx)).2.resp
          r).isSome = true) ∧
      (∀ b, e.batch_id = some b →
        (assocFind (entries.foldl (auditStep run_id) (db, idx)).2.batch
          b).isSome = true)) := by
  induction entries with
  | nil =>
      intro db idx hinv _
      exact ⟨hinv, fun _ h => h, fun _ h => h, fun e he => absurd he
        (List.not_mem_nil e)⟩
  | cons e tl ih =>
      intro db idx hinv hall
      have hstep := insert_or_update_spec db idx
        ⟨run_id, e.response_id, e.batch_id, e.total_cost⟩ hinv
        (hall e (List.mem_cons_self e tl))
      have hfold : (e :: tl).foldl (auditStep run_id) (db, idx) =
          tl.foldl (auditStep run_id) (auditStep run_id (db, idx) e) := rfl
      have hstate : auditStep run_id (db, idx) e =
          ((insert_or_update db idx
            ⟨run_id, e.response_id, e.batch_id, e.total_cost⟩).1,
           (insert_or_update db idx
            ⟨run_id, e.response_id, e.batch_id, e.total_cost⟩).2.1) := rfl
      obtain ⟨hinv1, hmr1, hmb1, hor1, hob1⟩ := hstep
      have ihres := ih _ _ hinv1 (fun x hx => hall x (List.mem_cons_of_mem _ hx))
      rw [hfold, hstate]
      obtain ⟨ihinv, ihmr, ihmb, ihkeys⟩ := ihres
      refine ⟨ihinv, ?_, ?_, ?_⟩
      · intro r h
        exact ihmr r (hmr1 r h)
      · intro b h
        exact ihmb b (hmb1 b h)
      · intro x hx
        rcases List.mem_cons.mp hx with h1 | h2
        · subst h1
          constructor
          · intro r hr
            exact ihmr r (hor1 r hr)
          · intro b hb
            exact ihmb b (hob1 b hb)
        · exact ihkeys x h2

theorem audit_entries_pass2 (run_id : String) (entries : List RespEntry) :
    ∀ (db : AuditDB) (idx : AuditIdx),
    (∀ e ∈ entries, entryOneId e) →
    (∀ e ∈ entries,
      (∀ r, e.response_id = some r → (assocFind idx.resp r).isSome = true) ∧
      (∀ b, e.batch_id = some b → (assocFind idx.batch b).isSome = true)) →
    (entries.foldl (auditStep run_id) (db, idx)).1.rows.length =
      db.rows.length ∧
    (∀ r, (assocFind idx.resp r).isSome = true →
        (assocFind (entries.foldl (auditStep run_id) (db, idx)).2.resp
          r).isSome = true) ∧
    (∀ b, (assocFind idx.batch b).isSome = true →
        (assocFind (entries.foldl (auditStep run_id) (db, idx)).2.batch
          b).isSome = true) := by
  induction entries with
  | nil =>
      intro db idx _ _
      exact ⟨rfl, fun _ h => h, fun _ h => h⟩
  | cons e tl ih =>
      intro db idx hall hpres
      have hstep := insert_or_update_pass2 db idx
        ⟨run_id, e.response_id, e.batch_id, e.total_cost⟩
        (hall e (List.mem_cons_self e tl))
        (hpres e (List.mem_cons_self e tl))
      obtain ⟨hlen1, hmr1, hmb1⟩ := hstep
      have hfold : (e :: tl).foldl (auditStep run_id) (db, idx) =
          tl.foldl (auditStep run_id) (auditStep run_id (db, idx) e) := rfl
      have hstate : auditStep run_id (db, idx) e =
          ((insert_or_update db idx
            ⟨run_id, e.response_id, e.batch_id, e.total_cost⟩).1,
           (insert_or_update db idx
            ⟨run_id, e.response_id, e.batch_id, e.total_cost⟩).2.1) := rfl
      have ihres := ih
        (insert_or_update db idx
          ⟨run_id, e.response_id, e.batch_id, e.total_cost⟩).1
        (insert_or_update db idx
          ⟨run_id, e.response_id, e.batch_id, e.total_cost⟩).2.1
        (fun x hx => hall x (List.mem_cons_of_mem _ hx))
        (fun x hx => ⟨fun r hr => hmr1 r ((hpres x (List.mem_cons_of_mem _
            hx)).1 r hr),
          fun b hb => hmb1 b ((hpres x (List.mem_cons_of_mem _ hx)).2 b hb)⟩)
      obtain ⟨ihlen, ihmr, ihmb⟩ := ihres
      rw [hfold, hstate]
      refine ⟨?_, ?_, ?_⟩
      · rw [ihlen]
        exact hlen1
      · intro r h
        exact ihmr r (hmr1 r h)
      · intro b h
        exact ihmb b (hmb1 b h)

theorem audit_run_eq_fold (db : AuditDB) (idx : AuditIdx) (run : RunT)
    (hne : run.entries ≠ []) :
    audit_run db idx run = run.entries.foldl (auditStep run.run_id)
      (db, idx) := by
  unfold audit_run
  cases h : run.entries with
  | nil => exact absurd h hne
  | cons a l => rfl

theorem audit_tree_spec (tree : List RunT) :
    ∀ (db : AuditDB) (idx : AuditIdx), AuditInv db idx →
    (∀ run ∈ tree, run.entries ≠ []) →
    (∀ run ∈ tree, ∀ e ∈ run.entries, entryOneId e) →
    AuditInv (tree.foldl (fun st run => audit_run st.1 st.2 run) (db, idx)).1
      (tree.foldl (fun st run => audit_run st.1 st.2 run) (db, idx)).2 ∧
    (∀ r, (assocFind idx.resp r).isSome = true →
      (assocFind (tree.foldl (fun st run => audit_run st.1 st.2 run)
        (db, idx)).2.resp r).isSome = true) ∧
    (∀ b, (assocFind idx.batch b).isSome = true →
      (assocFind (tree.foldl (fun st run => audit_run st.1 st.2 run)
        (db, idx)).2.batch b).isSome = true) ∧
    (∀ run ∈ tree, ∀ e ∈ run.entries,
      (∀ r, e.response_id = some r →
        (assocFind (tree.foldl (fun st run => audit_run st.1 st.2 run)
          (db, idx)).2.resp r).isSome = true) ∧
      (∀ b, e.batch_id = some b →
        (assocFind (tree.foldl (fun st run => audit_run st.1 st.2 run)
          (db, idx)).2.batch b).isSome = true)) := by
  induction tree with
  | nil =>
      intro db idx hinv _ _
      exact ⟨hinv, fun _ h => h, fun _ h => h,
        fun run hr => absurd hr (List.not_mem_nil run)⟩
  | cons run tl ih =>
      intro db idx hinv hne hone
      have hrun := audit_run_eq_fold db idx run
        (hne run (List.mem_cons_self run tl))
      have hspec := audit_entries_spec run.run_id run.entries db idx hinv
        (hone run (List.mem_cons_self run tl))
      obtain ⟨hinv1, hmr1, hmb1, hkeys1⟩ := hspec
      have hfold : (run :: tl).foldl (fun st run => audit_run st.1 st.2 run)
          (db, idx) =
          tl.foldl (fun st run => audit_run st.1 st.2 run)
            (audit_run db idx run) := by
        simp [List.foldl_cons]
      have hpair : audit_run db idx run =
          ((run.entries.foldl (auditStep run.run_id) (db, idx)).1,
           (run.entries.foldl (auditStep run.run_id) (db, idx)).2) := by
        rw [hrun]
      have ihres := ih
        (run.entries.foldl (auditStep run.run_id) (db, idx)).1
        (run.entries.foldl (auditStep run.run_id) (db, idx)).2 hinv1
        (fun x hx => hne x (List.mem_cons_of_mem _ hx))
        (fun x hx => hone x (List.mem_cons_of_mem _ hx))
      obtain ⟨ihinv, ihmr, ihmb, ihkeys⟩ := ihres
      rw [hfold, hpair]
      refine ⟨ihinv, ?_, ?_, ?_⟩
      · intro r h
        exact ihmr r (hmr1 r h)
      · intro b h
        exact ihmb b (hmb1 b h)
      · intro x hx
        rcases List.mem_cons.mp hx with h1 | h2
        · subst h1
          intro e he
          constructor
          · intro r hr
            exact ihmr r ((hkeys1 e he).1 r hr)
          · intro b hb
            exact ihmb b ((hkeys1 e he).2 b hb)
        · exact ihkeys x h2

theorem audit_tree_pass2 (tree : List RunT) :
    ∀ (db : AuditDB) (idx : AuditIdx),
    (∀ run ∈ tree, run.entries ≠ []) →
    (∀ run ∈ tree, ∀ e ∈ run.entries, entryOneId e) →
    (∀ run ∈ tree, ∀ e ∈ run.entries,
      (∀ r, e.response_id = some r → (assocFind idx.resp r).isSome = true) ∧
      (∀ b, e.batch_id = some b → (assocFind idx.batch b).isSome = true)) →
    (tree.foldl (fun st run => audit_run st.1 st.2 run)
      (db, idx)).1.rows.length = db.rows.length ∧
    (∀ r, (assocFind idx.resp r).isSome = true →
      (assocFind (tree.foldl (fun st run => audit_run st.1 st.2 run)
        (db, idx)).2.resp r).isSome = true) ∧
    (∀ b, (assocFind idx.batch b).isSome = true →
      (assocFind (tree.foldl (fun st run => audit_run st.1 st.2 run)
        (db, idx)).2.batch b).isSome = true) := by
  induction tree with
  | nil =>
      intro db idx _ _ _
      exact ⟨rfl, fun _ h => h, fun _ h => h⟩
  | cons run tl ih =>
      intro db idx hne hone hpres
      have hrun := audit_run_eq_fold db idx run
        (hne run (List.mem_cons_self run tl))
      have hp2 := audit_entries_pass2 run.run_id run.entries db idx
        (hone run (List.mem_cons_self run tl))
        (hpres run (List.mem_cons_self run tl))
      obtain ⟨hlen1, hmr1, hmb1⟩ := hp2
      have hfold : (run :: tl).foldl (fun st run => audit_run st.1 st.2 run)
          (db, idx) =
          tl.foldl (fun st run => audit_run st.1 st.2 run)
            (audit_run db idx run) := by
        simp [List.foldl_cons]
      have hpair : audit_run db idx run =
          ((run.entries.foldl (auditStep run.run_id) (db, idx)).1,
           (run.entries.foldl (auditStep run.run_id) (db, idx)).2) := by
        rw [hrun]
      have ihres := ih
        (run.entries.foldl (auditStep run.run_id) (db, idx)).1
        (run.entries.foldl (auditStep run.run_id) (db, idx)).2
        (fun x hx => hne x (List.mem_cons_of_mem _ hx))
        (fun x hx => hone x (List.mem_cons_of_mem _ hx))
        (fun x hx e he =>
          ⟨fun r hr =>
              hmr1 r ((hpres x (List.mem_cons_of_mem _ hx) e he).1 r hr),
            fun b hb =>
              hmb1 b ((hpres x (List.mem_cons_of_mem _ hx) e he).2 b hb)⟩)
      obtain ⟨ihlen, ihmr, ihmb⟩ := ihres
      rw [hfold, hpair]
      refine ⟨?_, ?_, ?_⟩
      · rw [ihlen]
        exact hlen1
      · intro r h
        exact ihmr r (hmr1 r h)
      · intro b h
        exact ihmb b (hmb1 b h)

theorem exists_row_of_countResp_pos (rows : List DBRow) (r : String)
    (h : 0 < countResp rows r) :
    ∃ row ∈ rows, row.response_id = some r := by
  unfold countResp at h
  cases hfl : rows.filter (fun row => row.response_id == some r) with
  | nil => rw [hfl] at h; simp at h
  | cons x xs =>
      have hx : x ∈ rows.filter (fun row => row.response_id == some r) := by
        rw [hfl]
        exact List.mem_cons_self x xs
      have hm := List.mem_filter.mp hx
      exact ⟨x, hm.1, by simpa using hm.2⟩

theorem exists_row_of_countBatch_pos (rows : List DBRow) (b : String)
    (h : 0 < countBatch rows b) :
    ∃ row ∈ rows, row.batch_id = some b := by
  unfold countBatch at h
  cases hfl : rows.filter (fun row => row.batch_id == some b) with
  | nil => rw [hfl] at h; simp at h
  | cons x xs =>
      have hx : x ∈ rows.filter (fun row => row.batch_id == some b) := by
        rw [hfl]
        exact List.mem_cons_self x xs
      have hm := List.mem_filter.mp hx
      exact ⟨x, hm.1, by simpa using hm.2⟩

theorem eiStep_resp_mono (i : AuditIdx) (row : DBRow) (r : String)
    (hi : (assocFind i.resp r).isSome = true) :
    (assocFind (eiStep i row).resp r).isSome = true := by
  unfold eiStep
  dsimp only
  cases row.response_id with
  | none => exact hi
  | some rid =>
      by_cases he : rid = ""
      · simpa [he] using hi
      · simpa [he] using assocSet_isSome_mono hi

theorem eiStep_batch_mono (i : AuditIdx) (row : DBRow) (b : String)
    (hi : (assocFind i.batch b).isSome = true) :
    (assocFind (eiStep i row).batch b).isSome = true := by
  unfold eiStep
  dsimp only
  cases row.batch_id with
  | none => exact hi
  | some bid =>
      by_cases he : bid = ""
      · simpa [he] using hi
      · simpa [he] using assocSet_isSome_mono hi

theorem eiStep_resp_self (i : AuditIdx) (row : DBRow) (r : String)
    (hr : r ≠ "") (hid : row.response_id = some r) :
    (assocFind (eiStep i row).resp r).isSome = true := by
  unfold eiStep
  dsimp only
  rw [hid]
  simpa [hr] using
    assocSet_isSome_self i.resp r ⟨row.id, row.run_id, row.total_cost⟩

theorem eiStep_batch_self (i : AuditIdx) (row : DBRow) (b : String)
    (hb : b ≠ "") (hid : row.batch_id = some b) :
    (assocFind (eiStep i row).batch b).isSome = true := by
  unfold eiStep
  dsimp only
  rw [hid]
  simpa [hb] using
    assocSet_isSome_self i.batch b ⟨row.id, row.run_id, row.total_cost⟩

theorem eiFold_resp_present (rows : List DBRow) :
    ∀ (idx : AuditIdx) (r : String), r ≠ "" →
    ((assocFind idx.resp r).isSome = true ∨
      ∃ row ∈ rows, row.response_id = some r) →
    (assocFind (rows.foldl eiStep idx).resp r).isSome = true := by
  induction rows with
  | nil =>
      intro idx r _ h
      rcases h with h | ⟨row, hmem, _⟩
      · exact h
      · exact absurd hmem (List.not_mem_nil row)
  | cons row tl ih =>
      intro idx r hr h
      rw [List.foldl_cons]
      rcases h with h | ⟨row', hmem, hid⟩
      · exact ih (eiStep idx row) r hr (Or.inl (eiStep_resp_mono idx row r h))
      · rcases List.mem_cons.mp hmem with rfl | h1
        · exact ih (eiStep idx row') r hr
            (Or.inl (eiStep_resp_self idx row' r hr hid))
        · exact ih (eiStep idx row) r hr (Or.inr ⟨row', h1, hid⟩)

theorem eiFold_batch_present (rows : List DBRow) :
    ∀ (idx : AuditIdx) (b : String), b ≠ "" →
    ((assocFind idx.batch b).isSome = true ∨
      ∃ row ∈ rows, row.batch_id = some b) →
    (assocFind (rows.foldl eiStep idx).batch b).isSome = true := by
  induction rows with
  | nil =>
      intro idx b _ h
      rcases h with h | ⟨row, hmem, _⟩
      · exact h
      · exact absurd hmem (List.not_mem_nil row)
  | cons row tl ih =>
      intro idx b hb h
      rw [List.foldl_cons]
      rcases h with h | ⟨row', hmem, hid⟩
      · exact ih (eiStep idx row) b hb (Or.inl (eiStep_batch_mono idx row b h))
      · rcases List.mem_cons.mp hmem with rfl | h1
        · exact ih (eiStep idx row') b hb
            (Or.inl (eiStep_batch_self idx row' b hb hid))
        · exact ih (eiStep idx row) b hb (Or.inr ⟨row', h1, hid⟩)

theorem auditInv_empty (n0 : Nat) :
    AuditInv ⟨[], n0⟩ ⟨[], [], []⟩ := by
  unfold AuditInv
  refine ⟨by simp, ?_, ?_, ?_, ?_, ?_⟩
  · intro row hrow
    exact absurd hrow (List.not_mem_nil row)
  · intro r
    simp [countResp, assocFind]
  · intro b
    simp [countBatch, assocFind]
  · intro r info h
    simp [assocFind] at h
  · intro b info h
    simp [assocFind] at h

/-- Claim C3: over a run tree whose run directories each hold at least one
response file and whose response files each carry exactly one truthy dedup
id (a response id or a batch id, never both), `PricingAuditor.audit`
starting from an empty store leaves exactly one receipt row per observed
response id, at most one row per batch id, and a second `audit` pass over
the same tree inserts no further rows. -/
theorem audit_dedup_and_idempotent (tree : List RunT) (n0 : Nat)
    (hne : ∀ run ∈ tree, run.entries ≠ [])
    (hone : ∀ run ∈ tree, ∀ e ∈ run.entries, entryOneId e) :
    (∀ r, (∃ run ∈ tree, ∃ e ∈ run.entries, e.response_id = some r) →
      countResp (audit ⟨[], n0⟩ tree).rows r = 1) ∧
    (∀ b, countBatch (audit ⟨[], n0⟩ tree).rows b ≤ 1) ∧
    (audit (audit ⟨[], n0⟩ tree) tree).rows.length =
      (audit ⟨[], n0⟩ tree).rows.length := by
  have hinit : AuditInv (⟨[], n0⟩ : AuditDB) (⟨[], [], []⟩ : AuditIdx) :=
    auditInv_empty n0
  have haudit1 : audit (⟨[], n0⟩ : AuditDB) tree =
      (tree.foldl (fun st run => audit_run st.1 st.2 run)
        ((⟨[], n0⟩ : AuditDB), (⟨[], [], []⟩ : AuditIdx))).1 := rfl
  have hpass1 := audit_tree_spec tree (⟨[], n0⟩ : AuditDB)
    (⟨[], [], []⟩ : AuditIdx) hinit hne hone
  obtain ⟨hinv1, hmr1, hmb1, hkeys1⟩ := hpass1
  unfold AuditInv at hinv1
  obtain ⟨hnd1, hlt1, hcr, hcb, hrsp1, hbat1⟩ := hinv1
  refine ⟨?_, ?_, ?_⟩
  · intro r hex
    obtain ⟨run, hrun, e, he, hid⟩ := hex
    have hkey := (hkeys1 run hrun e he).1 r hid
    rw [haudit1, hcr r]
    simp [hkey]
  · intro b
    rw [haudit1, hcb b]
    split_ifs <;> omega
  · rw [haudit1]
    have hpres2 : ∀ run ∈ tree, ∀ e ∈ run.entries,
        (∀ r, e.response_id = some r →
          (assocFind (existing_index (tree.foldl
            (fun st run => audit_run st.1 st.2 run)
            ((⟨[], n0⟩ : AuditDB), (⟨[], [], []⟩ : AuditIdx))).1).resp
            r).isSome = true) ∧
        (∀ b, e.batch_id = some b →
          (assocFind (existing_index (tree.foldl
            (fun st run => audit_run st.1 st.2 run)
            ((⟨[], n0⟩ : AuditDB), (⟨[], [], []⟩ : AuditIdx))).1).batch
            b).isSome = true) := by
      intro run hrun e he
      have hone' := hone run hrun e he
      constructor
      · intro r hid
        have hr : r ≠ "" := by
          intro hcon
          rcases hone' with ⟨ht, _⟩ | ⟨hn, _⟩
          · rw [hid, hcon] at ht
            simp [truthy] at ht
          · rw [hn] at hid
            exact Option.noConfusion hid
        have hkey := (hkeys1 run hrun e he).1 r hid
        have hpos : 0 < countResp (tree.foldl
            (fun st run => audit_run st.1 st.2 run)
            ((⟨[], n0⟩ : AuditDB), (⟨[], [], []⟩ : AuditIdx))).1.rows r := by
          rw [hcr r]
          simp [hkey]
        obtain ⟨row, hmem, hrow⟩ := exists_row_of_countResp_pos _ r hpos
        exact eiFold_resp_present _ ⟨[], [], []⟩ r hr (Or.inr ⟨row, hmem, hrow⟩)
      · intro b hidb
        have hb : b ≠ "" := by
          intro hcon
          rcases hone' with ⟨_, hbn⟩ | ⟨_, htb⟩
          · rw [hbn] at hidb
            exact Option.noConfusion hidb
          · rw [hidb, hcon] at htb
            simp [truthy] at htb
        have hkey := (hkeys1 run hrun e he).2 b hidb
        have hpos : 0 < countBatch (tree.foldl
            (fun st run => audit_run st.1 st.2 run)
            ((⟨[], n0⟩ : AuditDB), (⟨[], [], []⟩ : AuditIdx))).1.rows b := by
          rw [hcb b]
          simp [hkey]
        obtain ⟨row, hmem, hrow⟩ := exists_row_of_countBatch_pos _ b hpos
        exact eiFold_batch_present _ ⟨[], [], []⟩ b hb (Or.inr ⟨row, hmem, hrow⟩)
    have hp2 := audit_tree_pass2 tree
      (tree.foldl (fun st run => audit_run st.1 st.2 run)
        ((⟨[], n0⟩ : AuditDB), (⟨[], [], []⟩ : AuditIdx))).1
      (existing_index (tree.foldl (fun st run => audit_run st.1 st.2 run)
        ((⟨[], n0⟩ : AuditDB), (⟨[], [], []⟩ : AuditIdx))).1)
      hne hone hpres2
    exact hp2.1

/-- Concrete instance of the C3 theorem: a two-run tree, one run carrying a
response-id receipt and the other a batch-id receipt, audited from an empty
store. -/
theorem audit_dedup_and_idempotent_witness :
    countResp (audit ⟨[], 1⟩
      [⟨"RUN_A", [⟨some "resp1", none, 3⟩]⟩,
       ⟨"RUN_B", [⟨none, some "batch1", 7⟩]⟩]).rows "resp1" = 1 ∧
    countBatch (audit ⟨[], 1⟩
      [⟨"RUN_A", [⟨some "resp1", none, 3⟩]⟩,
       ⟨"RUN_B", [⟨none, some "batch1", 7⟩]⟩]).rows "batch1" ≤ 1 ∧
    (audit (audit ⟨[], 1⟩
      [⟨"RUN_A", [⟨some "resp1", none, 3⟩]⟩,
       ⟨"RUN_B", [⟨none, some "batch1", 7⟩]⟩])
      [⟨"RUN_A", [⟨some "resp1", none, 3⟩]⟩,
       ⟨"RUN_B", [⟨none, some "batch1", 7⟩]⟩]).rows.length =
    (audit ⟨[], 1⟩
      [⟨"RUN_A", [⟨some "resp1", none, 3⟩]⟩,
       ⟨"RUN_B", [⟨none, some "batch1", 7⟩]⟩]).rows.length := by
  have h := audit_dedup_and_idempotent
    [⟨"RUN_A", [⟨some "resp1", none, 3⟩]⟩,
     ⟨"RUN_B", [⟨none, some "batch1", 7⟩]⟩] 1
    (by
      intro run hr
      rcases List.mem_cons.mp hr with h1 | h1
      · subst h1
        simp
      · rcases List.mem_cons.mp h1 with h2 | h2
        · subst h2
          simp
        · exact absurd h2 (List.not_mem_nil run))
    (by
      intro run hr e he
      rcases List.mem_cons.mp hr with h1 | h1
      · subst h1
        rcases List.mem_cons.mp he with h2 | h2
        · subst h2
          exact Or.inl ⟨by decide, rfl⟩
        · exact absurd h2 (List.not_mem_nil e)
      · rcases List.mem_cons.mp h1 with h2 | h2
        · subst h2
          rcases List.mem_cons.mp he with h3 | h3
          · subst h3
            exact Or.inr ⟨rfl, by decide⟩
          · exact absurd h3 (List.not_mem_nil e)
        · exact absurd h2 (List.not_mem_nil run))
  exact ⟨h.1 "resp1" ⟨⟨"RUN_A", [⟨some "resp1", none, 3⟩]⟩,
      List.mem_cons_self _ _, ⟨some "resp1", none, 3⟩,
      List.mem_cons_self _ _, rfl⟩,
    h.2.1 "batch1", h.2.2⟩
